import Mathlib

/-!
Shallow embedding of the SIH railway dispatch backend
(src/backend/simulation/simulator.py, plan.py, optimizer.py,
optimizer_adapter.py and src/backend/main.py) together with proofs of the
behavioural properties stated about it.

Modelling conventions:
* Python `datetime` values are rational numbers of seconds on an absolute
  axis; `timedelta` arithmetic becomes `Rat` addition and subtraction.
* Python dicts (insertion ordered) are association lists; `dinsert` mirrors
  assignment `d[k] = v` (replace in place if the key exists, else append) and
  `dget` mirrors `d.get(k)`.
* The per-instance `random.Random(seed)` is abstracted as a stream
  `draws : Nat -> Nat` consumed in call order; two simulator instances
  constructed with the same seed share the same stream.
* `float` arithmetic is modelled exactly over `Rat`.
-/

namespace SIH

/-! ### Python dict as an insertion-ordered association list -/

variable {K : Type} {V : Type} [DecidableEq K]


/-- Mirrors `d.get(k)` on a Python dict. -/
def dget (k : K) : List (K × V) → Option V
  | [] => none
  | (k', v') :: rest => if k' = k then some v' else dget k rest

/-- Mirrors `d[k] = v` on a Python dict: replace in place, else append. -/
def dinsert (k : K) (v : V) : List (K × V) → List (K × V)
  | [] => [(k, v)]
  | (k', v') :: rest => if k' = k then (k, v) :: rest else (k', v') :: dinsert k v rest

/-! ### Plan value types (src/backend/simulation/plan.py) -/

/-- A hold directive (plan.py, `HoldDirective`).  The constructor validation
guarantees `not_before_offset_sec` is a genuine `int`, so it is an `Int` here. -/
structure HoldDirective where
  train_id : String
  block_id : String
  not_before_offset_sec : Int
deriving DecidableEq, Repr

/-- A plan: a list of hold directives (plan.py, `Plan`). -/
structure Plan where
  holds : List HoldDirective
deriving DecidableEq, Repr

/-- The dedup key used by `Plan.merged`: the Python tuple `(train_id, block_id)`. -/
def holdPair (h : HoldDirective) : String × String := (h.train_id, h.block_id)

/-- One iteration of the dedup loop in `Plan.merged`:
`if k not in best or h.not_before_offset_sec > best[k].not_before_offset_sec: best[k] = h`. -/
def mergeStep (best : List ((String × String) × HoldDirective)) (h : HoldDirective) :
    List ((String × String) × HoldDirective) :=
  match dget (holdPair h) best with
  | none => dinsert (holdPair h) h best
  | some h0 =>
      if h0.not_before_offset_sec < h.not_before_offset_sec then
        dinsert (holdPair h) h best
      else best

/-- The dedup loop of `Plan.merged` over a list of holds. -/
def mergeInto (best : List ((String × String) × HoldDirective))
    (hs : List HoldDirective) : List ((String × String) × HoldDirective) :=
  hs.foldl mergeStep best

/-- `Plan.merged` (plan.py): dedup by `(train_id, block_id)` keeping the max
offset; `list(best.values())` keeps dict insertion order. -/
def Plan.merged (p : Plan) : Plan :=
  ⟨(mergeInto [] p.holds).map Prod.snd⟩

/-! ### Dispatch optimizer (src/backend/simulation/optimizer.py) -/

/-- One train-block segment handed to the optimizer (optimizer.py,
`TrainRouteBlock`). -/
structure TrainRouteBlock where
  train_id : String
  block_id : String
  is_station : Bool
  travel_sec : Int
  dwell_sec : Int
  priority : String
deriving DecidableEq, Repr

/-- ASCII upper-casing, mirroring Python `str.upper()` on the priority names
(`String.toUpper` itself does not reduce in the kernel, so it is spelled out
on the character list). -/
def pyUpper (s : String) : String := ⟨s.data.map Char.toUpper⟩

/-- `PRIORITY_WEIGHTS.get(str(priority).upper(), 20)`. -/
def priorityWeight (p : String) : Int :=
  if pyUpper p = "EXPRESS" then 100
  else if pyUpper p = "REGIONAL" then 50
  else if pyUpper p = "FREIGHT" then 10
  else 20

/-- Interval duration of a segment in `DispatchOptimizer.optimize`:
dwell with a 5 s floor at stations, travel with a 10 s floor on tracks. -/
def segmentDuration (trb : TrainRouteBlock) : Int :=
  if trb.is_station then max 5 trb.dwell_sec else max 10 trb.travel_sec

/-- Mirrors `enumerate(routes)` with positions starting at `n`. -/
def enumRecords (n : Nat) : List TrainRouteBlock → List (Nat × TrainRouteBlock)
  | [] => []
  | t :: ts => (n, t) :: enumRecords (n + 1) ts

/-- Keys `(train_id, idx)` of the interval variables, in creation order. -/
def optKeys (routes : List TrainRouteBlock) : List (String × Nat) :=
  (enumRecords 0 routes).map (fun p => (p.2.train_id, p.1))

/-- The `weights` dict built in `DispatchOptimizer.optimize`: variable key to
priority weight. -/
def weightsDict (routes : List TrainRouteBlock) : List ((String × Nat) × Int) :=
  (enumRecords 0 routes).map (fun p => ((p.2.train_id, p.1), priorityWeight p.2.priority))

/-- The `linear_sum` expression built in `DispatchOptimizer.optimize`:
`sum(w * ends[k] for k, w in zip(ends.keys(), [weights[k] for k in ends.keys()]))`,
evaluated at an assignment `ends` of the end variables.  The `.getD 20` default
is never hit because `weights` has exactly the keys of `ends`. -/
def linearSum (routes : List TrainRouteBlock) (ends : String × Nat → Int) : Int :=
  let ks := optKeys routes
  let ws := ks.map (fun k => (dget k (weightsDict routes)).getD 20)
  ((ks.zip ws).map (fun kw => kw.2 * ends kw.1)).sum

/-- The value the `makespan` variable takes under `AddMaxEquality(makespan,
ends)`: the maximum end time; with no segments the minimization drives the
variable to its lower bound `now_sec`. -/
def makespanVal (now_sec : Int) (routes : List TrainRouteBlock)
    (ends : String × Nat → Int) : Int :=
  ((optKeys routes).map ends).foldl max now_sec

/-- The objective expression passed to `model.Minimize` in
`DispatchOptimizer.optimize`: `linear_sum * BIG + makespan` with
`BIG = max_time_sec + 1000`. -/
def codeObjective (max_time_sec now_sec : Int) (routes : List TrainRouteBlock)
    (ends : String × Nat → Int) : Int :=
  linearSum routes ends * (max_time_sec + 1000) + makespanVal now_sec routes ends

/-- Modelled from the spec words of claim C3: the objective as the spec claims
it, the makespan `max_i e_i` alone. -/
def specObjective (now_sec : Int) (routes : List TrainRouteBlock)
    (ends : String × Nat → Int) : Int :=
  makespanVal now_sec routes ends

def c3Routes : List TrainRouteBlock :=
  [⟨"A", "X", false, 10, 0, "EXPRESS"⟩, ⟨"B", "Y", false, 10, 0, "FREIGHT"⟩]

def c3EndsA : String × Nat → Int := fun k => if k = ("A", 0) then 10 else 20

def c3EndsB : String × Nat → Int := fun _ => 11

/-! ### Snapshot to optimizer input (optimizer.py, `optimize_from_sim`) -/

/-- A block summary in the optimizer snapshot (schemas.py, `BlockSnapshot`). -/
structure SnapBlock where
  id : String
  name : String
  length_km : Rat
  max_speed_kmh : Rat
  station : Bool
deriving DecidableEq, Repr

/-- A train summary in the optimizer snapshot (schemas.py, `TrainSnapshot`). -/
structure SnapTrain where
  id : String
  name : String
  priority : String
  route : List String
  route_index : Nat
deriving DecidableEq, Repr

/-- Snapshot parameters (schemas.py, `SnapshotParams`). -/
structure SnapParams where
  headway_sec : Int
  dwell_sec : Int
  default_speed_kmh : Rat
  max_time_sec : Int
  time_limit_sec : Rat
deriving DecidableEq, Repr

/-- The optimizer snapshot (schemas.py, `OptimizerSnapshot`; issues are unused
by `optimize_from_sim` and omitted). -/
structure Snapshot where
  blocks : List SnapBlock
  trains : List SnapTrain
  params : SnapParams
deriving DecidableEq, Repr

/-- `blocks = {b["id"]: b for b in data.get("blocks", [])}`. -/
def snapBlocksIdx (snap : Snapshot) : List (String × SnapBlock) :=
  snap.blocks.foldl (fun m b => dinsert b.id b m) []

/-- One `TrainRouteBlock` built for route entry `block_id` of a train: the body
of the inner loop of `optimize_from_sim`, Python `or` fallbacks for falsy
length and speed included. -/
def mkSeg (blocksIdx : List (String × SnapBlock)) (dwell_sec_default : Int)
    (default_speed : Rat) (train_id priority : String) (block_id : String) :
    TrainRouteBlock :=
  let bo := dget block_id blocksIdx
  let is_station := (bo.map (fun b => b.station)).getD false
  let length_km : Rat :=
    match bo with
    | some b => if b.length_km = 0 then 1 else b.length_km
    | none => 1
  let speed_kmh : Rat :=
    match bo with
    | some b => if b.max_speed_kmh = 0 then default_speed else b.max_speed_kmh
    | none => default_speed
  let travel_sec : Int :=
    if is_station then 0 else (max 10 ((length_km / max speed_kmh 1) * 3600)).floor
  let dwell_sec : Int := max 1 (if is_station then dwell_sec_default else 0)
  ⟨train_id, block_id, is_station, travel_sec, dwell_sec, priority⟩

/-- The segments contributed by one train: start scheduling from the train's
`route_index + 1` (skip the currently occupied block); trains already at the
final block contribute nothing. -/
def trainSegs (blocksIdx : List (String × SnapBlock)) (dwell_sec_default : Int)
    (default_speed : Rat) (t : SnapTrain) : List TrainRouteBlock :=
  let start_idx := t.route_index + 1
  if t.route.length ≤ start_idx then []
  else
    (List.range' start_idx (t.route.length - start_idx)).map
      (fun idx => mkSeg blocksIdx dwell_sec_default default_speed t.id t.priority
        (t.route.getD idx ""))

/-- The full segment list `routes` built by `optimize_from_sim` before the
solver call. -/
def buildRoutes (snap : Snapshot) : List TrainRouteBlock :=
  let blocksIdx := snapBlocksIdx snap
  let dwell_sec_default := max 0 snap.params.dwell_sec
  snap.trains.foldl
    (fun routes t =>
      routes ++ trainSegs blocksIdx dwell_sec_default snap.params.default_speed_kmh t) []

/-- Modelled from the spec words of claim C4: segments start at
`clamp(route_index, 0, len(route) - 1)` and run through the last index (an
empty route contributes nothing, mirroring the adapter's guard). -/
def buildRoutesClaimed (snap : Snapshot) : List TrainRouteBlock :=
  let blocksIdx := snapBlocksIdx snap
  let dwell_sec_default := max 0 snap.params.dwell_sec
  snap.trains.foldl
    (fun routes t =>
      if t.route.isEmpty then routes
      else
        let start_idx := min t.route_index (t.route.length - 1)
        routes ++ (List.range' start_idx (t.route.length - start_idx)).map
          (fun idx => mkSeg blocksIdx dwell_sec_default snap.params.default_speed_kmh
            t.id t.priority (t.route.getD idx ""))) []

def c4Snap : Snapshot :=
  { blocks := [⟨"B1", "B1", 1, 80, false⟩, ⟨"B2", "B2", 1, 80, false⟩]
    trains := [⟨"T", "T", "EXPRESS", ["B1", "B2"], 0⟩]
    params := ⟨120, 60, 80, 3600, 3/2⟩ }

/-! ### Simulation engine data model (src/backend/simulation/simulator.py) -/

inductive TrainPriority : Type
  | EXPRESS
  | REGIONAL
  | FREIGHT
deriving DecidableEq, Repr

inductive EventKind : Type
  | BLOCK_FAILED
  | BLOCK_CLEARED
  | DELAY_INJECTED
  | TRAIN_ARRIVED
  | TRAIN_DEPARTED
  | SIMULATION_COMPLETED
deriving DecidableEq, Repr

inductive SimulationStatus : Type
  | IDLE
  | RUNNING
  | COMPLETED
deriving DecidableEq, Repr

/-- The issue dict a block can carry: `{"type": ..., "since": iso(...)}`. -/
structure IssueInfo where
  type : String
  since : Rat
deriving DecidableEq, Repr

/-- The `Train` dataclass. -/
structure Train where
  id : String
  name : String
  priority : TrainPriority
  current_block : String
  route : List String
  route_index : Nat
  speed_kmh : Rat
  next_block : Option String
  delay_minutes : Int
  dwell_remaining : Int
  entered_block_at : Option Rat
  will_exit_at : Option Rat
  waiting_sec : Rat
deriving DecidableEq, Repr

/-- The `Block` dataclass. -/
structure Block where
  id : String
  name : String
  length_km : Rat
  max_speed_kmh : Rat
  adjacent_blocks : List String
  station_id : Option String
  platform_id : Option String
  occupied_by : Option String
  issue : Option IssueInfo
  issue_since : Option Rat
  last_exit_time : Option Rat
deriving DecidableEq, Repr

/-- An `EventMessage` (schemas.py); the event id string formatting is
abstracted to the run-unique counter value. -/
structure EventMessage where
  event_id : Nat
  event_kind : EventKind
  train_id : Option String
  block_id : Option String
  timestamp : Rat
  note : String
deriving DecidableEq, Repr

/-- The mutable state of a `RailwaySimulator` instance.  `recent_events` is
declared in the source but never written after `reset` clears it, so it is
omitted. -/
structure SimState where
  blocks : List (String × Block)
  trains : List (String × Train)
  sim_time : Rat
  tick_count : Nat
  base_tick_sec : Rat
  headway_sec : Int
  dwell_sec : Int
  energy_stop_penalty : Rat
  simulation_speed : Rat
  max_block_travel_sec : Int
  status : SimulationStatus
  completed : Bool
  completion_emitted : Bool
  moved_this_tick : Bool
  idle_ticks : Nat
  idle_limit : Nat
  event_counter : Nat
  active_plan : Option Plan
  holds_index : List (String × Rat)
deriving DecidableEq, Repr

/-- Seconds of simulated time per tick: `base_tick_sec * simulation_speed`. -/
def tickAmount (s : SimState) : Rat := s.base_tick_sec * s.simulation_speed

/-- The string key `train_id|block_id` used by `apply_plan` and by the gate in
`_process_train`. -/
def holdKey (train_id block_id : String) : String := train_id ++ "|" ++ block_id

/-- `_priority_speed` on the roster's enum priorities. -/
def prioritySpeed : TrainPriority → Rat
  | .EXPRESS => 100
  | .REGIONAL => 70
  | .FREIGHT => 60

/-- `_block_travel_seconds`: the dict lookup of the block is hoisted to the
caller, which always passes the block stored at the looked-up id. -/
def blockTravelSeconds (s : SimState) (train : Train) (b : Block) : Rat :=
  if b.station_id.isSome then 0
  else
    let speed := min train.speed_kmh (max b.max_speed_kmh 1)
    let travel := (b.length_km / max speed (1 / 1000000)) * 3600
    max 1 (min travel (s.max_block_travel_sec : Rat))

/-- `_compute_will_exit`. -/
def computeWillExit (s : SimState) (train : Train) (b : Block) (enter : Rat) : Rat :=
  if b.station_id.isSome then enter + (s.dwell_sec : Rat)
  else enter + blockTravelSeconds s train b

/-- The dwell-remaining update at the top of `_process_train` (`int()` on the
positive remaining seconds is a floor). -/
def dwellUpdate (s : SimState) (cur : Block) (t : Train) : Train :=
  if cur.station_id.isSome then
    match t.will_exit_at with
    | some w =>
        if s.sim_time < w then { t with dwell_remaining := (w - s.sim_time).floor }
        else { t with dwell_remaining := 0 }
    | none => { t with dwell_remaining := 0 }
  else t

/-- The wait accounting of `_process_train`: add one tick of waiting and
convert whole minutes into delay. -/
def waitTick (s : SimState) (t : Train) : Train :=
  let w := t.waiting_sec + tickAmount s
  if 60 ≤ w then
    let inc := (w / 60).floor
    { t with waiting_sec := w - 60 * inc, delay_minutes := t.delay_minutes + inc }
  else { t with waiting_sec := w }

/-- `_can_enter_next_block`.  The `none` branch is a Python `KeyError`, never
reached because routes are validated against the block map. -/
def canEnterNextBlock (s : SimState) (block_id : String) : Bool :=
  match dget block_id s.blocks with
  | none => false
  | some nxt =>
      if nxt.occupied_by.isSome || nxt.issue.isSome then false
      else
        match nxt.last_exit_time with
        | some le => decide ((s.headway_sec : Rat) ≤ s.sim_time - le)
        | none => true

/-- `_create_event`. -/
def createEvent (s : SimState) (kind : EventKind) (train_id block_id : Option String)
    (note : String) : SimState × EventMessage :=
  let ctr := s.event_counter + 1
  ({ s with event_counter := ctr },
   { event_id := ctr, event_kind := kind, train_id := train_id, block_id := block_id,
     timestamp := s.sim_time, note := note })

/-- A wait gate firing in `_process_train`: the train accumulates one tick of
waiting and nothing else happens. -/
def trainWait (s : SimState) (tid : String) (train : Train) :
    SimState × List EventMessage :=
  ({ s with trains := dinsert tid (waitTick s train) s.trains }, [])

/-- The depart-and-enter tail of `_process_train`: clear and time-stamp the
current block, emit TRAIN_DEPARTED, occupy the next block, update the train's
position and timing, and emit TRAIN_ARRIVED when the new block is a station. -/
def trainMove (s : SimState) (tid : String) (train : Train) (cur_block : Block)
    (next_block_id : String) : SimState × List EventMessage :=
  let cur' := { cur_block with occupied_by := none, last_exit_time := some s.sim_time }
  let s2 : SimState := { s with blocks := dinsert train.current_block cur' s.blocks }
  let dep := createEvent s2 .TRAIN_DEPARTED (some tid) (some cur_block.id)
    (train.name ++ " departed " ++ cur_block.name)
  match dget next_block_id dep.1.blocks with
  | none => (dep.1, [dep.2])
  | some nxt =>
    let s4 : SimState := { dep.1 with
      blocks := dinsert next_block_id { nxt with occupied_by := some tid } dep.1.blocks }
    let train' : Train := { train with
      current_block := next_block_id,
      route_index := train.route_index + 1,
      entered_block_at := some s4.sim_time,
      will_exit_at := some (computeWillExit s4 train nxt s4.sim_time),
      next_block := train.route.get? (train.route_index + 2),
      waiting_sec := 0 }
    let s5 : SimState := { s4 with
      trains := dinsert tid train' s4.trains, moved_this_tick := true }
    if nxt.station_id.isSome then
      let arr := createEvent s5 .TRAIN_ARRIVED (some tid) (some nxt.id)
        (train.name ++ " arrived at " ++ nxt.name)
      (arr.1, [dep.2, arr.2])
    else (s5, [dep.2])

/-- The traversing-or-dwelling check of `_process_train`:
`train.will_exit_at and self.sim_time < train.will_exit_at`. -/
def stillTraversing (s : SimState) (t : Train) : Bool :=
  match t.will_exit_at with
  | some w => decide (s.sim_time < w)
  | none => false

/-- The plan-hold gate of `_process_train`: an active plan whose holds index
maps `train_id|block_id` to a deadline still in the future. -/
def holdGate (s : SimState) (tid next_block_id : String) : Bool :=
  s.active_plan.isSome &&
    (match dget (holdKey tid next_block_id) s.holds_index with
     | some hold_until => decide (s.sim_time < hold_until)
     | none => false)

/-- `_process_train`.  Returns the updated state and the events produced for
this train.  Dict lookups that Python guarantees by construction (current
block present, guarded next index in range) return the state unchanged in the
unreachable `none` branches. -/
def processTrain (s : SimState) (tid : String) : SimState × List EventMessage :=
  match dget tid s.trains with
  | none => (s, [])
  | some train0 =>
    match dget train0.current_block s.blocks with
    | none => (s, [])
    | some cur_block =>
      let train := dwellUpdate s cur_block train0
      let s1 : SimState := { s with trains := dinsert tid train s.trains }
      if stillTraversing s1 train then (s1, [])
      else if train.route.length - 1 ≤ train.route_index then (s1, [])
      else
        match train.route.get? (train.route_index + 1) with
        | none => (s1, [])
        | some next_block_id =>
          if holdGate s1 tid next_block_id then
            trainWait s1 tid train
          else if !canEnterNextBlock s1 next_block_id then
            trainWait s1 tid train
          else
            trainMove s1 tid train cur_block next_block_id

/-- `_is_completed`. -/
def isCompletedCheck (s : SimState) : Bool :=
  s.trains.all fun kv =>
    let t := kv.2
    let at_end := decide (t.route.length - 1 ≤ t.route_index)
    let traversing := match t.will_exit_at with
      | some w => decide (s.sim_time < w)
      | none => false
    let dwelling := decide (0 < t.dwell_remaining)
    at_end && !traversing && !dwelling

/-- The per-tick movement pass of `step`: process every train (a snapshot of
the id list) in insertion order, concatenating events. -/
def runTrains (s : SimState) : SimState × List EventMessage :=
  (s.trains.map Prod.fst).foldl
    (fun acc tid =>
      let r := processTrain acc.1 tid
      (r.1, acc.2 ++ r.2))
    (s, [])

/-- `step`. -/
def step (s : SimState) : SimState × List EventMessage :=
  if s.status = SimulationStatus.RUNNING then
    if s.completed then (s, [])
    else
      let s1 : SimState := { s with
        tick_count := s.tick_count + 1,
        sim_time := s.sim_time + tickAmount s,
        moved_this_tick := false }
      let r := runTrains s1
      let s3 : SimState :=
        if r.1.moved_this_tick then { r.1 with idle_ticks := 0 }
        else
          let it := r.1.idle_ticks + 1
          if r.1.idle_limit ≤ it then { r.1 with idle_ticks := it, completed := true }
          else { r.1 with idle_ticks := it }
      let s4 : SimState :=
        if !s3.completed && isCompletedCheck s3 then { s3 with completed := true } else s3
      if s4.completed && !s4.completion_emitted then
        let ce := createEvent s4 .SIMULATION_COMPLETED none none
          "All trains reached their final blocks"
        ({ ce.1 with completion_emitted := true, status := SimulationStatus.COMPLETED },
         r.2 ++ [ce.2])
      else (s4, r.2)
  else (s, [])

/-- `start`. -/
def start (s : SimState) : SimState :=
  if s.status = SimulationStatus.COMPLETED then s
  else if s.status = SimulationStatus.RUNNING then s
  else { s with status := SimulationStatus.RUNNING }

/-- The holds index built by `apply_plan`: offsets anchored at the sim time of
the call.  The `int()` conversion cannot fail because `HoldDirective`
validates the field as an `int`. -/
def buildHoldsIndex (p : Plan) (base : Rat) : List (String × Rat) :=
  p.holds.foldl
    (fun idx h => dinsert (holdKey h.train_id h.block_id)
      (base + (h.not_before_offset_sec : Rat)) idx) []

/-- `apply_plan`: `if plan and plan.holds` - a `Plan` object is always truthy,
so only emptiness of `holds` matters, and an empty fold leaves the cleared
index unchanged either way. -/
def applyPlan (p : Plan) (s : SimState) : SimState :=
  { s with active_plan := some p, holds_index := buildHoldsIndex p s.sim_time }

/-- `clear_plan`. -/
def clearPlan (s : SimState) : SimState :=
  { s with active_plan := none, holds_index := [] }

/-- `inject_delay`: an unknown train raises `ValueError` before any mutation. -/
def injectDelay (train_id : String) (delay_minutes : Int) (s : SimState) :
    Except String (SimState × EventMessage) :=
  match dget train_id s.trains with
  | none => .error ("Train " ++ train_id ++ " not found")
  | some train =>
    let train' := { train with
      delay_minutes := train.delay_minutes + max 0 delay_minutes }
    let s1 : SimState := { s with trains := dinsert train_id train' s.trains }
    .ok (createEvent s1 .DELAY_INJECTED (some train_id) none
      ("Added " ++ toString delay_minutes ++ " min delay to " ++ train.name))

/-- `set_block_issue`: an unknown block raises `ValueError` before any
mutation. -/
def setBlockIssue (block_id : String) (blocked : Bool) (s : SimState) :
    Except String (SimState × EventMessage) :=
  match dget block_id s.blocks with
  | none => .error ("Block " ++ block_id ++ " not found")
  | some block =>
    if blocked then
      let block' := { block with
        issue := some ⟨"BLOCKED", s.sim_time⟩, issue_since := some s.sim_time }
      let s1 : SimState := { s with blocks := dinsert block_id block' s.blocks }
      .ok (createEvent s1 .BLOCK_FAILED none (some block_id)
        ("Block " ++ block_id ++ " blocked"))
    else
      let block' := { block with issue := none, issue_since := none }
      let s1 : SimState := { s with blocks := dinsert block_id block' s.blocks }
      .ok (createEvent s1 .BLOCK_CLEARED none (some block_id)
        ("Block " ++ block_id ++ " cleared"))

/-- `ControlPayload` (schemas.py). -/
structure ControlPayload where
  headway_sec : Option Int
  dwell_sec : Option Int
  energy_stop_penalty : Option Rat
  simulation_speed : Option Rat
deriving DecidableEq, Repr

/-- `update_parameters`. -/
def updateParameters (c : ControlPayload) (s : SimState) : SimState :=
  let sa := match c.headway_sec with
    | some h => { s with headway_sec := max 0 h }
    | none => s
  let sb := match c.dwell_sec with
    | some d => { sa with dwell_sec := max 0 d }
    | none => sa
  let sc := match c.energy_stop_penalty with
    | some e => { sb with energy_stop_penalty := max 0 e }
    | none => sb
  match c.simulation_speed with
  | some v => { sc with simulation_speed := max (1 / 10) (min 10 v) }
  | none => sc

/-! ### Reset and train initialization -/

/-- A topology block (schemas.py, `Block`). -/
structure TopologyBlock where
  id : String
  name : String
  length_km : Rat
  max_speed_kmh : Rat
  adjacent_blocks : List String
  station_id : Option String
  platform_id : Option String
deriving DecidableEq, Repr

/-- The topology (schemas.py, `RailwayTopology`); stations are not read by the
engine and omitted. -/
structure RailwayTopology where
  blocks : List TopologyBlock
  default_headway_sec : Int
  default_dwell_sec : Int
  default_speed_kmh : Rat
deriving DecidableEq, Repr

/-- A runtime `Block` from a topology block (the loading loop in `reset`). -/
def mkBlock (b : TopologyBlock) : Block :=
  { id := b.id, name := b.name, length_km := b.length_km,
    max_speed_kmh := b.max_speed_kmh, adjacent_blocks := b.adjacent_blocks,
    station_id := b.station_id, platform_id := b.platform_id,
    occupied_by := none, issue := none, issue_since := none, last_exit_time := none }

/-- One roster entry from the hard-coded `train_configs` list. -/
structure TrainConfig where
  id : String
  name : String
  priority : TrainPriority
  route : List String
deriving DecidableEq, Repr

/-- The fixed 8-train demo roster of `_initialize_trains` (the routes are
already flat id lists, so `_flatten_route` is the identity on them). -/
def trainConfigs : List TrainConfig :=
  [⟨"T1", "EXP-12001", .EXPRESS, ["B1", "B2", "B3", "B4", "B5", "B6", "B7"]⟩,
   ⟨"T2", "REG-22002", .REGIONAL, ["B7", "B6", "B5", "B4", "B3", "B2", "B1"]⟩,
   ⟨"T3", "EXP-12003", .EXPRESS, ["B1", "B2", "B8", "B9", "B6", "B7"]⟩,
   ⟨"T4", "FRE-32004", .FREIGHT, ["B3", "B4", "B5", "B10"]⟩,
   ⟨"T5", "REG-22005", .REGIONAL, ["B6", "B9", "B8", "B2", "B1"]⟩,
   ⟨"T6", "EXP-12006", .EXPRESS, ["B1", "B2", "B3", "B11"]⟩,
   ⟨"T7", "FRE-32007", .FREIGHT, ["B10", "B5", "B4", "B3", "B2", "B1"]⟩,
   ⟨"T8", "REG-22008", .REGIONAL, ["B7", "B6", "B5", "B4", "B3", "B2", "B1"]⟩]

/-- First route position whose block is currently free (the `start_index`
scan); `none` when every route block is occupied (the warn-and-fall-back-to-0
case). -/
def findFreeIndex (s : SimState) : List String → Nat → Option Nat
  | [], _ => none
  | bid :: rest, i =>
      match dget bid s.blocks with
      | some b => if b.occupied_by.isNone then some i else findFreeIndex s rest (i + 1)
      | none => findFreeIndex s rest (i + 1)

/-- The per-train loop of `_initialize_trains`; `k` numbers the trains so the
RNG draws (two per train: the entry stagger `randint(0, 40)` then the initial
delay `randint(0, 2)`) are consumed in call order from the seeded stream
`draws`. -/
def initTrainsAux (draws : Nat → Nat) :
    List TrainConfig → Nat → SimState → Except String SimState
  | [], _, s => .ok s
  | cfg :: rest, k, s =>
      if cfg.route.isEmpty then
        .error ("Train " ++ cfg.id ++ " has empty/invalid route")
      else if cfg.route.any (fun bid => (dget bid s.blocks).isNone) then
        .error ("Train " ++ cfg.id ++ " route unknown blocks")
      else
        let start_index := (findFreeIndex s cfg.route 0).getD 0
        let start_block := cfg.route.getD start_index ""
        let enter_offset : Rat := (draws (2 * k) : Rat)
        let entered : Rat := s.sim_time - enter_offset
        match dget start_block s.blocks with
        | none => .error ("Train " ++ cfg.id ++ " route unknown blocks")
        | some sb =>
          let t0 : Train :=
            { id := cfg.id, name := cfg.name, priority := cfg.priority,
              current_block := start_block, route := cfg.route,
              route_index := start_index,
              speed_kmh := prioritySpeed cfg.priority,
              next_block := cfg.route.get? (start_index + 1),
              delay_minutes := (draws (2 * k + 1) : Int), dwell_remaining := 0,
              entered_block_at := some entered,
              will_exit_at := none, waiting_sec := 0 }
          let t : Train := { t0 with will_exit_at := some (computeWillExit s t0 sb entered) }
          let s' : SimState := { s with
            trains := dinsert cfg.id t s.trains,
            blocks := dinsert start_block { sb with occupied_by := some cfg.id } s.blocks }
          initTrainsAux draws rest (k + 1) s'

/-- `_initialize_trains`: clear occupancy and exit times, then seed the fixed
roster. -/
def initializeTrainsFn (draws : Nat → Nat) (s : SimState) : Except String SimState :=
  let s1 : SimState := { s with
    blocks := s.blocks.map
      (fun kv => (kv.1, { kv.2 with occupied_by := none, last_exit_time := none })) }
  initTrainsAux draws trainConfigs 0 s1

/-- `reset`: the topology comes from an external file and is a parameter here;
`now` is the wall clock of the call (`datetime.now(timezone.utc)`). -/
def resetState (topo : RailwayTopology) (draws : Nat → Nat) (now : Rat)
    (s : SimState) : Except String SimState :=
  let s1 : SimState := { s with
    sim_time := now, tick_count := 0, event_counter := 0,
    completed := false, completion_emitted := false, moved_this_tick := false,
    idle_ticks := 0, active_plan := none, holds_index := [],
    status := SimulationStatus.IDLE,
    blocks := topo.blocks.foldl (fun bs b => dinsert b.id (mkBlock b) bs) [],
    headway_sec := topo.default_headway_sec,
    dwell_sec := topo.default_dwell_sec,
    trains := [] }
  initializeTrainsFn draws s1

/-- The constructor state `RailwaySimulator(seed)`; `t0` is the wall clock at
construction. -/
def initialSimState (t0 : Rat) : SimState :=
  { blocks := [], trains := [], sim_time := t0, tick_count := 0,
    base_tick_sec := 5, headway_sec := 120, dwell_sec := 60,
    energy_stop_penalty := 0, simulation_speed := 1, max_block_travel_sec := 45,
    status := SimulationStatus.IDLE, completed := false, completion_emitted := false,
    moved_this_tick := false, idle_ticks := 0, idle_limit := 200,
    event_counter := 0, active_plan := none, holds_index := [] }

/-! ### Batch runs and metrics -/

/-- The stepping loop of `RailwaySimulator.run_to_completion`:
`while not completed and tick_count < max_ticks: step()`.  `fuel` bounds the
iterations; the Python loop terminates because `tick_count` strictly increases
while RUNNING, so `fuel = max_ticks` always suffices from `tick_count = 0`. -/
def runToCompletionLoop (max_ticks : Nat) :
    Nat → SimState → SimState × List EventMessage
  | 0, s => (s, [])
  | fuel + 1, s =>
      if s.completed || !(decide (s.tick_count < max_ticks)) then (s, [])
      else
        let r := step s
        let rest := runToCompletionLoop max_ticks fuel r.1
        (rest.1, r.2 ++ rest.2)

/-- `RailwaySimulator.run_to_completion`, with the tick events ghost-collected
(Python drops the lists returned by `step`). -/
def runToCompletion (max_ticks : Nat) (s : SimState) : SimState × List EventMessage :=
  runToCompletionLoop max_ticks max_ticks (start s)

/-- Python `round` on an exact rational: banker's rounding (half to even). -/
def roundHalfEven (q : Rat) : Int :=
  let f := q.floor
  let frac := q - (f : Rat)
  if frac < 1 / 2 then f
  else if (1 : Rat) / 2 < frac then f + 1
  else if f % 2 = 0 then f else f + 1

/-- `round(x, 1)`. -/
def round1 (q : Rat) : Rat := (roundHalfEven (10 * q) : Rat) / 10

/-- The dict returned by `collect_metrics`; `sim_time` is kept as the
underlying rational instant rather than an ISO string. -/
structure RunMetrics where
  avg_delay_min : Rat
  total_delay_min : Int
  trains_on_line : Nat
  ticks : Nat
  sim_time : Rat
  completed : Bool
  status : SimulationStatus
deriving DecidableEq, Repr

/-- `collect_metrics`. -/
def collectMetrics (s : SimState) : RunMetrics :=
  let total : Int := (s.trains.map (fun kv => kv.2.delay_minutes)).sum
  { avg_delay_min := round1 ((total : Rat) / ((max 1 s.trains.length : Nat) : Rat)),
    total_delay_min := total,
    trains_on_line := s.trains.length,
    ticks := s.tick_count,
    sim_time := s.sim_time,
    completed := s.completed,
    status := s.status }

/-- `RailwaySimulator.run_batch`: fresh instance, reset, optional plan, run to
completion.  The wall clock `t0` feeds both construction and reset (only the
reset value is ever observable). -/
def runBatch (topo : RailwayTopology) (draws : Nat → Nat) (t0 : Rat)
    (plan : Option Plan) (max_ticks : Nat) :
    Except String (SimState × List EventMessage) :=
  match resetState topo draws t0 (initialSimState t0) with
  | .error e => .error e
  | .ok s =>
      let s1 := match plan with
        | some p => applyPlan p s
        | none => s
      .ok (runToCompletion max_ticks s1)

/-- The stepping loop of `run_to_completion` in main.py: a local tick counter
bounds the loop at 20000 iterations. -/
def mainRunLoop : Nat → SimState → SimState
  | 0, s => s
  | fuel + 1, s => if s.completed then s else mainRunLoop fuel (step s).1

/-- A `TrainDelayRow` (schemas.py). -/
structure TrainDelayRow where
  train_id : String
  name : String
  delay_min : Int
deriving DecidableEq, Repr

/-- `RerunMetrics` (schemas.py); the placeholder `by_block` rows are omitted -
they are the constant 0 for every block. -/
structure RerunMetrics where
  avg_delay_min : Rat
  trains_on_line : Nat
  duration_sec : Int
  by_train : List TrainDelayRow
deriving DecidableEq, Repr

/-- `compute_metrics` (main.py): the kpis come from `get_state_message`
(same rounded average), duration is `int(max(0, end - start))`. -/
def computeMetricsMain (s : SimState) (start_time : Rat) : RerunMetrics :=
  let total : Int := (s.trains.map (fun kv => kv.2.delay_minutes)).sum
  { avg_delay_min := round1 ((total : Rat) / ((max 1 s.trains.length : Nat) : Rat)),
    trains_on_line := s.trains.length,
    duration_sec := (max 0 (s.sim_time - start_time)).floor,
    by_train := s.trains.map (fun kv => ⟨kv.2.id, kv.2.name, kv.2.delay_minutes⟩) }

/-- `run_to_completion` (main.py): fresh simulator, reset, optionally apply
the plan (`if plan:` is true for any `Plan` object, holds or not), start, step
to completion or 20000 ticks, report metrics. -/
def mainRunToCompletion (topo : RailwayTopology) (draws : Nat → Nat) (t0 : Rat)
    (plan : Option Plan) : Except String RerunMetrics :=
  match resetState topo draws t0 (initialSimState t0) with
  | .error e => .error e
  | .ok s =>
      let start_time := s.sim_time
      let s1 := match plan with
        | some p => applyPlan p s
        | none => s
      .ok (computeMetricsMain (mainRunLoop 20000 (start s1)) start_time)

/-! ### Frame and branch lemmas for the movement pass -/

/-- Scalar fields of the state that `_process_train` never writes. -/
def ScalarFrame (s s' : SimState) : Prop :=
  s'.sim_time = s.sim_time ∧ s'.holds_index = s.holds_index
  ∧ s'.active_plan = s.active_plan ∧ s'.base_tick_sec = s.base_tick_sec
  ∧ s'.simulation_speed = s.simulation_speed ∧ s'.headway_sec = s.headway_sec
  ∧ s'.dwell_sec = s.dwell_sec ∧ s'.status = s.status
  ∧ s'.completed = s.completed ∧ s'.tick_count = s.tick_count
  ∧ s'.idle_ticks = s.idle_ticks ∧ s'.idle_limit = s.idle_limit

/-- The clock-advance prefix of a RUNNING, non-completed `step`. -/
def advanceTick (s : SimState) : SimState :=
  { s with tick_count := s.tick_count + 1,
           sim_time := s.sim_time + tickAmount s,
           moved_this_tick := false }

/-! ### Reachable states and the engine invariant -/

/-- The holds index is only populated while a plan is active (`apply_plan` sets
both, `clear_plan` and `reset` clear both). -/
def planOK (s : SimState) : Prop := s.active_plan = none → s.holds_index = []

/-- Every recorded block exit lies in the past of the simulation clock. -/
def timesOK (s : SimState) : Prop :=
  ∀ k b le, dget k s.blocks = some b → b.last_exit_time = some le → le ≤ s.sim_time

/-- Invariant of every state reachable through the public API. -/
def EngineInv (s : SimState) : Prop :=
  planOK s ∧ timesOK s ∧ 0 < s.base_tick_sec ∧ 0 < s.simulation_speed
    ∧ (s.trains.map Prod.fst).Nodup

/-- States reachable through the engine's public operations from a freshly
constructed instance. -/
inductive Reachable : SimState → Prop
  | ctor (t0 : Rat) : Reachable (initialSimState t0)
  | resetR {s s' : SimState} (topo : RailwayTopology) (draws : Nat → Nat) (now : Rat) :
      Reachable s → resetState topo draws now s = .ok s' → Reachable s'
  | startR {s : SimState} : Reachable s → Reachable (start s)
  | stepR {s : SimState} : Reachable s → Reachable (step s).1
  | applyPlanR {s : SimState} (p : Plan) : Reachable s → Reachable (applyPlan p s)
  | clearPlanR {s : SimState} : Reachable s → Reachable (clearPlan s)
  | updateParamsR {s : SimState} (c : ControlPayload) :
      Reachable s → Reachable (updateParameters c s)
  | injectR {s s' : SimState} {ev : EventMessage} (tid : String) (m : Int) :
      Reachable s → injectDelay tid m s = .ok (s', ev) → Reachable s'
  | blockIssueR {s s' : SimState} {ev : EventMessage} (bid : String) (bl : Bool) :
      Reachable s → setBlockIssue bid bl s = .ok (s', ev) → Reachable s'

/-- A track block occupied by the demo train. -/
def c1Block1 : Block :=
  { id := "B1", name := "B1", length_km := 1, max_speed_kmh := 80,
    adjacent_blocks := [], station_id := none, platform_id := none,
    occupied_by := some "T1", issue := none, issue_since := none,
    last_exit_time := none }

/-- A free station block the demo train is about to enter. -/
def c1Block2 : Block :=
  { id := "B2", name := "B2", length_km := 1, max_speed_kmh := 80,
    adjacent_blocks := [], station_id := some "S1", platform_id := none,
    occupied_by := none, issue := none, issue_since := none,
    last_exit_time := none }

/-- The demo train, sitting in `B1` with `B2` next on its route. -/
def c1Train : Train :=
  { id := "T1", name := "EXP", priority := .EXPRESS, current_block := "B1",
    route := ["B1", "B2", "B3"], route_index := 0, speed_kmh := 100,
    next_block := some "B2", delay_minutes := 0, dwell_remaining := 0,
    entered_block_at := none, will_exit_at := none, waiting_sec := 0 }

/-- A running engine state holding `T1` out of `B2` until instant 50 (already
past at clock 100): the next tick lets the train enter. -/
def c1EntryState : SimState :=
  { blocks := [("B1", c1Block1), ("B2", c1Block2)],
    trains := [("T1", c1Train)],
    sim_time := 100, tick_count := 0, base_tick_sec := 1, headway_sec := 10,
    dwell_sec := 30, energy_stop_penalty := 0, simulation_speed := 1,
    max_block_travel_sec := 45, status := .RUNNING, completed := false,
    completion_emitted := false, moved_this_tick := false, idle_ticks := 0,
    idle_limit := 200, event_counter := 0,
    active_plan := some ⟨[⟨"T1", "B2", 0⟩]⟩,
    holds_index := [("T1|B2", 50)] }

/-- `c1EntryState` with the hold deadline still in the future (150 > 100):
the gate fires. -/
def c1GateState : SimState :=
  { c1EntryState with active_plan := some ⟨[⟨"T1", "B2", 50⟩]⟩,
                      holds_index := [("T1|B2", 150)] }

/-- The demo train after the tick at clock 101: entered the station block
`B2`, dwell exit at 131. -/
def c1TrainAfter : Train :=
  { id := "T1", name := "EXP", priority := .EXPRESS, current_block := "B2",
    route := ["B1", "B2", "B3"], route_index := 1, speed_kmh := 100,
    next_block := some "B3", delay_minutes := 0, dwell_remaining := 0,
    entered_block_at := some 101, will_exit_at := some 131, waiting_sec := 0 }

/-- The state the gated tick leaves behind: only `T1`'s wait accounting ran. -/
def c1GateResult : SimState :=
  { c1GateState with
      trains := dinsert "T1"
        (waitTick c1GateState (dwellUpdate c1GateState c1Block1 c1Train))
        c1GateState.trains }

/-- `B2` with a recorded exit at instant 85. -/
def c2Block2 : Block :=
  { id := "B2", name := "B2", length_km := 1, max_speed_kmh := 80,
    adjacent_blocks := [], station_id := some "S1", platform_id := none,
    occupied_by := none, issue := none, issue_since := none,
    last_exit_time := some 85 }

/-- A running engine state (no plan) where `T1` is about to enter `B2`, whose
last recorded exit was at 85; headway 10 ≤ 101 - 85 lets it in on the next
tick. -/
def c2State : SimState :=
  { blocks := [("B1", c1Block1), ("B2", c2Block2)],
    trains := [("T1", c1Train)],
    sim_time := 100, tick_count := 0, base_tick_sec := 1, headway_sec := 10,
    dwell_sec := 30, energy_stop_penalty := 0, simulation_speed := 1,
    max_block_travel_sec := 45, status := .RUNNING, completed := false,
    completion_emitted := false, moved_this_tick := false, idle_ticks := 0,
    idle_limit := 200, event_counter := 0,
    active_plan := none, holds_index := [] }

/-- The post-movement phases of `step` (idle fuse, completion detection,
completion event), factored out of the `RUNNING`/non-completed path. -/
def stepPhases (r : SimState × List EventMessage) : SimState × List EventMessage :=
  let s3 : SimState :=
    if r.1.moved_this_tick then { r.1 with idle_ticks := 0 }
    else
      let it := r.1.idle_ticks + 1
      if r.1.idle_limit ≤ it then { r.1 with idle_ticks := it, completed := true }
      else { r.1 with idle_ticks := it }
  let s4 : SimState :=
    if !s3.completed && isCompletedCheck s3 then { s3 with completed := true } else s3
  if s4.completed && !s4.completion_emitted then
    let ce := createEvent s4 .SIMULATION_COMPLETED none none
      "All trains reached their final blocks"
    ({ ce.1 with completion_emitted := true, status := SimulationStatus.COMPLETED },
     r.2 ++ [ce.2])
  else (s4, r.2)

/-! ### C7: runs are deterministic - the start wall-clock only shifts timestamps -/

/-- Shift every stored instant of a train by `δ` (durations are untouched). -/
def shiftTrain (δ : Rat) (t : Train) : Train :=
  { t with entered_block_at := t.entered_block_at.map (fun x => x + δ),
           will_exit_at := t.will_exit_at.map (fun x => x + δ) }

/-- Shift the issue timestamp by `δ`. -/
def shiftIssue (δ : Rat) (i : IssueInfo) : IssueInfo := { i with since := i.since + δ }

/-- Shift every stored instant of a block by `δ`. -/
def shiftBlock (δ : Rat) (b : Block) : Block :=
  { b with issue := b.issue.map (shiftIssue δ),
           issue_since := b.issue_since.map (fun x => x + δ),
           last_exit_time := b.last_exit_time.map (fun x => x + δ) }

/-- Shift an event's timestamp by `δ`. -/
def shiftEvent (δ : Rat) (e : EventMessage) : EventMessage :=
  { e with timestamp := e.timestamp + δ }

/-- Shift the simulation clock and every stored instant of an engine state by
`δ`. -/
def shiftState (δ : Rat) (s : SimState) : SimState :=
  { s with sim_time := s.sim_time + δ,
           trains := s.trains.map (fun kv => (kv.1, shiftTrain δ kv.2)),
           blocks := s.blocks.map (fun kv => (kv.1, shiftBlock δ kv.2)),
           holds_index := s.holds_index.map (fun kv => (kv.1, kv.2 + δ)) }

/-- The completion-event emission at the end of `step`'s phases. -/
def stepEmit (s4 : SimState) (r2 : List EventMessage) : SimState × List EventMessage :=
  if s4.completed && !s4.completion_emitted then
    let ce := createEvent s4 .SIMULATION_COMPLETED none none
      "All trains reached their final blocks"
    ({ ce.1 with completion_emitted := true, status := SimulationStatus.COMPLETED },
     r2 ++ [ce.2])
  else (s4, r2)

/-- The idle-fuse phase of `step`. -/
def stepIdle (r1 : SimState) : SimState :=
  if r1.moved_this_tick then { r1 with idle_ticks := 0 }
  else
    let it := r1.idle_ticks + 1
    if r1.idle_limit ≤ it then { r1 with idle_ticks := it, completed := true }
    else { r1 with idle_ticks := it }

/-- The completion-detection phase of `step`. -/
def stepCheck (s3 : SimState) : SimState :=
  if !s3.completed && isCompletedCheck s3 then { s3 with completed := true } else s3

/-- The movement record of a run: the kind / train / block of each event, in
order, with timestamps stripped. -/
def movementLog (evs : List EventMessage) :
    List (EventKind × Option String × Option String) :=
  evs.map (fun e => (e.event_kind, e.train_id, e.block_id))

/-- The wall-clock-free core of `collect_metrics`: average delay, total delay,
tick count and completion flag. -/
def coreMetrics (s : SimState) : Rat × Int × Nat × Bool :=
  ((collectMetrics s).avg_delay_min, (collectMetrics s).total_delay_min,
   (collectMetrics s).ticks, (collectMetrics s).completed)

theorem dget_dinsert_self (k : K) (v : V) (l : List (K × V)) :
    dget k (dinsert k v l) = some v := by
  induction l with
  | nil => simp [dget, dinsert]
  | cons kv rest ih =>
    by_cases h : kv.1 = k
    · simp [dinsert, dget, h]
    · simp [dinsert, dget, h, ih]

theorem dget_dinsert_ne (k k' : K) (v : V) (l : List (K × V)) (h : k' ≠ k) :
    dget k' (dinsert k v l) = dget k' l := by
  induction l with
  | nil => simp [dget, dinsert, fun hh => h hh.symm ∘ Eq.symm, (Ne.symm h)]
  | cons kv rest ih =>
    by_cases hk : kv.1 = k
    · subst hk
      simp [dinsert, dget, Ne.symm h]
    · by_cases hk' : kv.1 = k'
      · simp [dinsert, dget, hk, hk', h]
      · simp [dinsert, dget, hk, hk', ih]

theorem dget_none_iff (k : K) (l : List (K × V)) :
    dget k l = none ↔ k ∉ l.map Prod.fst := by
  induction l with
  | nil => simp [dget]
  | cons kv rest ih =>
    by_cases h : kv.1 = k
    · simp [dget, h]
    · simp [dget, h, ih, Ne.symm h]

theorem mem_dinsert (k : K) (v : V) (l : List (K × V)) (kv : K × V)
    (h : kv ∈ dinsert k v l) : kv = (k, v) ∨ kv ∈ l := by
  induction l with
  | nil => simpa [dinsert] using h
  | cons kv' rest ih =>
    by_cases hk : kv'.1 = k
    · simp only [dinsert, if_pos hk, List.mem_cons] at h
      rcases h with h | h
      · exact .inl h
      · exact .inr (List.mem_cons_of_mem _ h)
    · simp only [dinsert, if_neg hk, List.mem_cons] at h
      rcases h with h | h
      · exact .inr (by simp [h])
      · rcases ih h with h' | h'
        · exact .inl h'
        · exact .inr (List.mem_cons_of_mem _ h')

theorem dget_append (k : K) (l1 l2 : List (K × V)) :
    dget k (l1 ++ l2) =
      (match dget k l1 with
       | some v => some v
       | none => dget k l2) := by
  induction l1 with
  | nil => simp [dget]
  | cons kv rest ih =>
    by_cases hk : kv.1 = k
    · simp [dget, hk]
    · simp [dget, hk, ih]

theorem keys_dinsert (k : K) (v : V) (l : List (K × V)) :
    (dinsert k v l).map Prod.fst =
      if k ∈ l.map Prod.fst then l.map Prod.fst else l.map Prod.fst ++ [k] := by
  induction l with
  | nil => simp [dinsert]
  | cons kv rest ih =>
    by_cases h : kv.1 = k
    · simp [dinsert, h]
    · simp only [dinsert, if_neg h, List.map_cons, ih]
      by_cases hm : k ∈ rest.map Prod.fst
      · simp [hm, Ne.symm h]
      · simp [hm, Ne.symm h]

theorem keys_dinsert_nodup (k : K) (v : V) (l : List (K × V))
    (h : (l.map Prod.fst).Nodup) : ((dinsert k v l).map Prod.fst).Nodup := by
  rw [keys_dinsert]
  by_cases hm : k ∈ l.map Prod.fst
  · simpa [hm]
  · simpa [hm, List.nodup_append] using h

theorem dget_foldl_dinsert {α : Type} (key : α → K) (val : α → V) (hs : List α) :
    ∀ (idx : List (K × V)) (k : K),
      dget k (hs.foldl (fun m h => dinsert (key h) (val h) m) idx)
        = match hs.reverse.find? (fun h => decide (key h = k)) with
          | some h => some (val h)
          | none => dget k idx := by
  induction hs with
  | nil => intro idx k; simp
  | cons h rest ih =>
    intro idx k
    simp only [List.foldl_cons, List.reverse_cons]
    rw [ih, List.find?_append]
    cases hfind : rest.reverse.find? (fun h => decide (key h = k)) with
    | some g => simp [Option.orElse]
    | none =>
      by_cases hk : key h = k
      · subst hk
        simp [Option.orElse, List.find?, dget_dinsert_self]
      · simp [Option.orElse, List.find?, hk, dget_dinsert_ne _ _ _ _ (fun he => hk he.symm)]

theorem keys_foldl_dinsert_nodup {α : Type} (key : α → K) (val : α → V) (hs : List α) :
    ∀ idx, (idx.map Prod.fst).Nodup →
      (((hs.foldl (fun m h => dinsert (key h) (val h) m) idx)).map Prod.fst).Nodup := by
  induction hs with
  | nil => intro idx h; exact h
  | cons h rest ih =>
    intro idx hn
    exact ih _ (keys_dinsert_nodup _ _ _ hn)

theorem zip_self_lookup (l : List (K × V)) (d : V) (hn : (l.map Prod.fst).Nodup) :
    (l.map Prod.fst).zip ((l.map Prod.fst).map (fun k => (dget k l).getD d)) = l := by
  induction l with
  | nil => rfl
  | cons kv rest ih =>
    obtain ⟨k, v⟩ := kv
    simp only [List.map_cons, List.nodup_cons] at hn
    simp only [List.map_cons, List.zip_cons_cons]
    congr 1
    · simp [dget]
    · have hmap : (rest.map Prod.fst).map (fun k' => (dget k' ((k, v) :: rest)).getD d)
          = (rest.map Prod.fst).map (fun k' => (dget k' rest).getD d) := by
        apply List.map_congr_left
        intro k' hk'
        have hne : k ≠ k' := fun he => hn.1 (he ▸ hk')
        simp [dget, hne]
      rw [hmap, ih hn.2]

theorem mem_of_dget_eq_some (k : K) (v : V) (l : List (K × V))
    (h : dget k l = some v) : (k, v) ∈ l := by
  induction l with
  | nil => simp [dget] at h
  | cons kv rest ih =>
    by_cases hk : kv.1 = k
    · obtain ⟨a, b⟩ := kv
      simp only at hk
      subst hk
      have hb : b = v := by simpa [dget] using h
      simp [hb]
    · simp only [dget, if_neg hk] at h
      exact List.mem_cons_of_mem _ (ih h)

theorem dget_isSome_iff (k : K) (l : List (K × V)) :
    (dget k l).isSome ↔ k ∈ l.map Prod.fst := by
  constructor
  · intro h
    rcases Option.isSome_iff_exists.mp h with ⟨v, hv⟩
    exact List.mem_map.mpr ⟨(k, v), mem_of_dget_eq_some k v l hv, rfl⟩
  · intro h
    by_contra hc
    rw [Option.not_isSome_iff_eq_none] at hc
    exact ((dget_none_iff k l).mp hc) h

theorem dinsert_eq_append (k : K) (v : V) (l : List (K × V))
    (h : dget k l = none) : dinsert k v l = l ++ [(k, v)] := by
  induction l with
  | nil => simp [dinsert]
  | cons kv rest ih =>
    by_cases hk : kv.1 = k
    · simp [dget, hk] at h
    · simp only [dget, if_neg hk] at h
      simp [dinsert, hk, ih h]

theorem keys_dinsert_of_dget (k : K) (v w : V) (l : List (K × V))
    (h : dget k l = some w) : (dinsert k v l).map Prod.fst = l.map Prod.fst := by
  rw [keys_dinsert, if_pos]
  exact (dget_isSome_iff k l).mp (by rw [h]; rfl)

theorem dinsert_dinsert_same (k : K) (v w : V) (l : List (K × V)) :
    dinsert k v (dinsert k w l) = dinsert k v l := by
  induction l with
  | nil => simp [dinsert]
  | cons kv rest ih =>
    by_cases h : kv.1 = k
    · simp [dinsert, h]
    · simp [dinsert, h, ih]

theorem dget_map_snd {W : Type} (f : V → W) (k : K) (l : List (K × V)) :
    dget k (l.map (fun kv => (kv.1, f kv.2))) = (dget k l).map f := by
  induction l with
  | nil => simp [dget]
  | cons kv rest ih =>
    by_cases h : kv.1 = k
    · simp [dget, h]
    · simp [dget, h, ih]

theorem dinsert_map_snd {W : Type} (f : V → W) (k : K) (v : V) (l : List (K × V)) :
    (dinsert k v l).map (fun kv => (kv.1, f kv.2))
      = dinsert k (f v) (l.map (fun kv => (kv.1, f kv.2))) := by
  induction l with
  | nil => simp [dinsert]
  | cons kv rest ih =>
    by_cases h : kv.1 = k
    · simp [dinsert, h]
    · simp [dinsert, h, ih]

theorem dget_eq_some_of_mem_nodup (k : K) (v : V) (l : List (K × V))
    (hn : (l.map Prod.fst).Nodup) (hm : (k, v) ∈ l) : dget k l = some v := by
  induction l with
  | nil => simp at hm
  | cons kv rest ih =>
    simp only [List.map_cons, List.nodup_cons] at hn
    rcases List.mem_cons.mp hm with h | h
    · subst h; simp [dget]
    · have hne : kv.1 ≠ k := by
        intro he
        exact hn.1 (he ▸ (List.mem_map.mpr ⟨(k, v), h, rfl⟩))
      simp [dget, hne, ih hn.2 h]

/-! Lemmas about the dedup loop of `Plan.merged`. -/

theorem mergeInto_cons (best : List ((String × String) × HoldDirective))
    (h : HoldDirective) (rest : List HoldDirective) :
    mergeInto best (h :: rest) = mergeInto (mergeStep best h) rest := rfl

theorem dget_mergeStep_isSome (best : List ((String × String) × HoldDirective))
    (h : HoldDirective) (k : String × String) :
    (dget k (mergeStep best h)).isSome ↔ (dget k best).isSome ∨ k = holdPair h := by
  unfold mergeStep
  cases hd : dget (holdPair h) best with
  | none =>
    by_cases hk : k = holdPair h
    · subst hk; simp [dget_dinsert_self, hd]
    · simp [dget_dinsert_ne _ _ _ _ hk, hk]
  | some h0 =>
    by_cases hlt : h0.not_before_offset_sec < h.not_before_offset_sec
    · by_cases hk : k = holdPair h
      · subst hk; simp [hlt, dget_dinsert_self, hd]
      · simp [hlt, dget_dinsert_ne _ _ _ _ hk, hk]
    · by_cases hk : k = holdPair h
      · subst hk; simp [hlt, hd]
      · simp [hlt, hk]

theorem dget_mergeInto_isSome (hs : List HoldDirective) :
    ∀ best k, (dget k (mergeInto best hs)).isSome ↔
      (dget k best).isSome ∨ k ∈ hs.map holdPair := by
  induction hs with
  | nil => intro best k; simp [mergeInto]
  | cons h rest ih =>
    intro best k
    rw [mergeInto_cons, ih, dget_mergeStep_isSome]
    simp [or_assoc, or_comm, or_left_comm]

theorem mergeStep_none (best : List ((String × String) × HoldDirective))
    (h : HoldDirective) (hd : dget (holdPair h) best = none) :
    mergeStep best h = dinsert (holdPair h) h best := by
  simp only [mergeStep, hd]

theorem mergeStep_some_lt (best : List ((String × String) × HoldDirective))
    (h h0 : HoldDirective) (hd : dget (holdPair h) best = some h0)
    (hlt : h0.not_before_offset_sec < h.not_before_offset_sec) :
    mergeStep best h = dinsert (holdPair h) h best := by
  simp only [mergeStep, hd, if_pos hlt]

theorem mergeStep_some_ge (best : List ((String × String) × HoldDirective))
    (h h0 : HoldDirective) (hd : dget (holdPair h) best = some h0)
    (hlt : ¬h0.not_before_offset_sec < h.not_before_offset_sec) :
    mergeStep best h = best := by
  simp only [mergeStep, hd, if_neg hlt]

theorem mergeStep_wf (best : List ((String × String) × HoldDirective))
    (h : HoldDirective) (hb : ∀ kv ∈ best, kv.1 = holdPair kv.2) :
    ∀ kv ∈ mergeStep best h, kv.1 = holdPair kv.2 := by
  intro kv hm
  cases hd : dget (holdPair h) best with
  | none =>
    rw [mergeStep_none best h hd] at hm
    rcases mem_dinsert _ _ _ _ hm with he | he
    · simp [he]
    · exact hb kv he
  | some h0 =>
    by_cases hlt : h0.not_before_offset_sec < h.not_before_offset_sec
    · rw [mergeStep_some_lt best h h0 hd hlt] at hm
      rcases mem_dinsert _ _ _ _ hm with he | he
      · simp [he]
      · exact hb kv he
    · rw [mergeStep_some_ge best h h0 hd hlt] at hm
      exact hb kv hm

theorem mergeInto_wf (hs : List HoldDirective) :
    ∀ best, (∀ kv ∈ best, kv.1 = holdPair kv.2) →
      ∀ kv ∈ mergeInto best hs, kv.1 = holdPair kv.2 := by
  induction hs with
  | nil => intro best hb kv hm; exact hb kv hm
  | cons h rest ih =>
    intro best hb kv hm
    exact ih (mergeStep best h) (mergeStep_wf best h hb) kv hm

theorem mergeStep_keys_nodup (best : List ((String × String) × HoldDirective))
    (h : HoldDirective) (hn : (best.map Prod.fst).Nodup) :
    ((mergeStep best h).map Prod.fst).Nodup := by
  cases hd : dget (holdPair h) best with
  | none =>
    rw [mergeStep_none best h hd]
    exact keys_dinsert_nodup _ _ _ hn
  | some h0 =>
    by_cases hlt : h0.not_before_offset_sec < h.not_before_offset_sec
    · rw [mergeStep_some_lt best h h0 hd hlt]
      exact keys_dinsert_nodup _ _ _ hn
    · rw [mergeStep_some_ge best h h0 hd hlt]
      exact hn

theorem mergeInto_keys_nodup (hs : List HoldDirective) :
    ∀ best, (best.map Prod.fst).Nodup → ((mergeInto best hs).map Prod.fst).Nodup := by
  induction hs with
  | nil => intro best hn; exact hn
  | cons h rest ih =>
    intro best hn
    exact ih (mergeStep best h) (mergeStep_keys_nodup best h hn)

theorem dget_mergeInto_mono (hs : List HoldDirective) :
    ∀ best k h0, dget k best = some h0 →
      ∃ h1, dget k (mergeInto best hs) = some h1 ∧
        h0.not_before_offset_sec ≤ h1.not_before_offset_sec := by
  induction hs with
  | nil => intro best k h0 hd; exact ⟨h0, hd, le_refl _⟩
  | cons h rest ih =>
    intro best k h0 hd
    rw [mergeInto_cons]
    cases hdh : dget (holdPair h) best with
    | none =>
      rw [mergeStep_none best h hdh]
      have hk : k ≠ holdPair h := fun he => by rw [he, hdh] at hd; cases hd
      have : dget k (dinsert (holdPair h) h best) = some h0 := by
        rw [dget_dinsert_ne _ _ _ _ hk]; exact hd
      exact ih _ k h0 this
    | some g =>
      by_cases hlt : g.not_before_offset_sec < h.not_before_offset_sec
      · rw [mergeStep_some_lt best h g hdh hlt]
        by_cases hk : k = holdPair h
        · subst hk
          have hg : h0 = g := by rw [hd] at hdh; cases hdh; rfl
          rcases ih _ (holdPair h) h (dget_dinsert_self _ _ _) with ⟨h1, hh1, hle⟩
          exact ⟨h1, hh1, le_trans (le_of_lt (hg ▸ hlt)) hle⟩
        · have : dget k (dinsert (holdPair h) h best) = some h0 := by
            rw [dget_dinsert_ne _ _ _ _ hk]; exact hd
          exact ih _ k h0 this
      · rw [mergeStep_some_ge best h g hdh hlt]
        exact ih _ k h0 hd

theorem dget_mergeInto_mem (hs : List HoldDirective) :
    ∀ best k h1, dget k (mergeInto best hs) = some h1 →
      dget k best = some h1 ∨ (h1 ∈ hs ∧ holdPair h1 = k) := by
  induction hs with
  | nil => intro best k h1 hd; exact .inl hd
  | cons h rest ih =>
    intro best k h1 hd
    rw [mergeInto_cons] at hd
    rcases ih _ k h1 hd with hcase | hcase
    · cases hdh : dget (holdPair h) best with
      | none =>
        rw [mergeStep_none best h hdh] at hcase
        by_cases hk : k = holdPair h
        · subst hk
          rw [dget_dinsert_self] at hcase
          cases hcase
          exact .inr ⟨List.mem_cons_self _ _, rfl⟩
        · rw [dget_dinsert_ne _ _ _ _ hk] at hcase
          exact .inl hcase
      | some g =>
        by_cases hlt : g.not_before_offset_sec < h.not_before_offset_sec
        · rw [mergeStep_some_lt best h g hdh hlt] at hcase
          by_cases hk : k = holdPair h
          · subst hk
            rw [dget_dinsert_self] at hcase
            cases hcase
            exact .inr ⟨List.mem_cons_self _ _, rfl⟩
          · rw [dget_dinsert_ne _ _ _ _ hk] at hcase
            exact .inl hcase
        · rw [mergeStep_some_ge best h g hdh hlt] at hcase
          exact .inl hcase
    · exact .inr ⟨List.mem_cons_of_mem _ hcase.1, hcase.2⟩

theorem dget_mergeInto_max (hs : List HoldDirective) :
    ∀ best k h1 g, dget k (mergeInto best hs) = some h1 → g ∈ hs → holdPair g = k →
      g.not_before_offset_sec ≤ h1.not_before_offset_sec := by
  induction hs with
  | nil => intro _ _ _ _ _ hg; simp at hg
  | cons h rest ih =>
    intro best k h1 g hd hg hk
    rw [mergeInto_cons] at hd
    rcases List.mem_cons.mp hg with he | he
    · subst he
      -- after `mergeStep best g`, the value at key k exists and dominates g
      have hstep : ∃ hv, dget k (mergeStep best g) = some hv ∧
          g.not_before_offset_sec ≤ hv.not_before_offset_sec := by
        cases hdg : dget (holdPair g) best with
        | none =>
          rw [mergeStep_none best g hdg, ← hk]
          exact ⟨g, dget_dinsert_self _ _ _, le_refl _⟩
        | some g0 =>
          by_cases hlt : g0.not_before_offset_sec < g.not_before_offset_sec
          · rw [mergeStep_some_lt best g g0 hdg hlt, ← hk]
            exact ⟨g, dget_dinsert_self _ _ _, le_refl _⟩
          · rw [mergeStep_some_ge best g g0 hdg hlt, ← hk]
            exact ⟨g0, hdg, le_of_not_lt hlt⟩
      rcases hstep with ⟨hv, hhv, hle⟩
      rcases dget_mergeInto_mono rest _ k hv hhv with ⟨h1', hh1', hle'⟩
      rw [hd] at hh1'
      cases hh1'
      exact le_trans hle hle'
    · exact ih _ k h1 g hd he hk

theorem mergeInto_disjoint (hs : List HoldDirective) :
    ∀ best, (hs.map holdPair).Nodup →
      (∀ g ∈ hs, dget (holdPair g) best = none) →
      mergeInto best hs = best ++ hs.map (fun h => (holdPair h, h)) := by
  induction hs with
  | nil => intro best _ _; simp [mergeInto]
  | cons h rest ih =>
    intro best hn hdj
    have hdh : dget (holdPair h) best = none := hdj h (List.mem_cons_self _ _)
    rw [mergeInto_cons]
    have hstep : mergeStep best h = best ++ [(holdPair h, h)] := by
      unfold mergeStep
      rw [hdh, dinsert_eq_append _ _ _ hdh]
    rw [hstep]
    simp only [List.map_cons, List.nodup_cons] at hn
    have hdj' : ∀ g ∈ rest, dget (holdPair g) (best ++ [(holdPair h, h)]) = none := by
      intro g hg
      rw [dget_append]
      rw [hdj g (List.mem_cons_of_mem _ hg)]
      have hne : (holdPair h) ≠ holdPair g := by
        intro he
        exact hn.1 (he ▸ List.mem_map.mpr ⟨g, hg, rfl⟩)
      simp [dget, hne]
    rw [ih _ hn.2 hdj']
    simp

/-- A plan whose holds already have pairwise-distinct keys merges to itself. -/
theorem merged_of_keys_nodup (q : Plan) (hn : (q.holds.map holdPair).Nodup) :
    q.merged = q := by
  unfold Plan.merged
  rw [mergeInto_disjoint q.holds [] hn (by intro g _; rfl)]
  cases q
  congr 1
  simp only [List.map_nil, List.nil_append, List.map_map]
  exact List.map_congr_left (fun h _ => rfl) |>.trans (List.map_id _)

theorem merged_keys_eq (p : Plan) :
    p.merged.holds.map holdPair = (mergeInto [] p.holds).map Prod.fst := by
  unfold Plan.merged
  simp only [List.map_map]
  apply List.map_congr_left
  intro kv hm
  have := mergeInto_wf p.holds [] (by intro kv h; simp at h) kv hm
  simp [Function.comp, this.symm]

theorem merged_keys_nodup (p : Plan) : (p.merged.holds.map holdPair).Nodup := by
  rw [merged_keys_eq]
  exact mergeInto_keys_nodup p.holds [] (by simp)

/-- C8: `Plan.merged` keeps exactly one hold per distinct `(train_id, block_id)`
pair occurring in the plan; the hold kept for a pair is one of the plan's own
holds and its `not_before_offset_sec` is maximal among the plan's holds with
that pair; consequently `merged` is idempotent. -/
theorem merged_dedup_max_idempotent (p : Plan) :
    ((p.merged.holds.map holdPair).Nodup
      ∧ ∀ tb : String × String,
          tb ∈ p.merged.holds.map holdPair ↔ tb ∈ p.holds.map holdPair)
  ∧ (∀ h ∈ p.merged.holds, h ∈ p.holds ∧
        ∀ g ∈ p.holds, holdPair g = holdPair h →
          g.not_before_offset_sec ≤ h.not_before_offset_sec)
  ∧ p.merged.merged = p.merged := by
  refine ⟨⟨merged_keys_nodup p, ?_⟩, ?_, merged_of_keys_nodup _ (merged_keys_nodup p)⟩
  · intro tb
    rw [merged_keys_eq, ← dget_isSome_iff, dget_mergeInto_isSome]
    simp [dget]
  · intro h hm
    rcases List.mem_map.mp hm with ⟨kv, hkv, hsnd⟩
    have hwf := mergeInto_wf p.holds [] (by intro kv h; simp at h) kv hkv
    have hnod := mergeInto_keys_nodup p.holds [] (by simp)
    have hd : dget kv.1 (mergeInto [] p.holds) = some h := by
      have := dget_eq_some_of_mem_nodup kv.1 kv.2 _ hnod (by cases kv; exact hkv)
      rwa [hsnd] at this
    constructor
    · rcases dget_mergeInto_mem p.holds [] kv.1 h hd with hc | hc
      · simp [dget] at hc
      · exact hc.1
    · intro g hg hpair
      refine dget_mergeInto_max p.holds [] kv.1 h g hd hg ?_
      rw [hpair, ← hsnd, hwf]

/-- Witness for C8 at a concrete plan with a duplicated pair. -/
theorem merged_dedup_max_idempotent_witness :
    (("T1", "B2") ∈
        (Plan.merged ⟨[⟨"T1", "B2", 10⟩, ⟨"T1", "B2", 20⟩, ⟨"T2", "B3", 5⟩]⟩).holds.map holdPair)
    ∧ (10 : Int) ≤ 20 := by
  have H := merged_dedup_max_idempotent ⟨[⟨"T1", "B2", 10⟩, ⟨"T1", "B2", 20⟩, ⟨"T2", "B3", 5⟩]⟩
  refine ⟨(H.1.2 ("T1", "B2")).mpr (by decide), ?_⟩
  exact (H.2.1 ⟨"T1", "B2", 20⟩ (by decide)).2 ⟨"T1", "B2", 10⟩ (by decide) (by decide)

theorem fst_ge_of_mem_enumRecords (routes : List TrainRouteBlock) :
    ∀ n p, p ∈ enumRecords n routes → n ≤ p.1 := by
  induction routes with
  | nil => intro n p hp; simp [enumRecords] at hp
  | cons t ts ih =>
    intro n p hp
    rcases List.mem_cons.mp hp with he | he
    · simp [he]
    · exact le_trans (Nat.le_succ n) (ih (n + 1) p he)

theorem optKeys_nodup_from (routes : List TrainRouteBlock) :
    ∀ n, ((enumRecords n routes).map (fun p => (p.2.train_id, p.1))).Nodup := by
  induction routes with
  | nil => intro n; simp [enumRecords]
  | cons t ts ih =>
    intro n
    simp only [enumRecords, List.map_cons, List.nodup_cons]
    refine ⟨?_, ih (n + 1)⟩
    intro hmem
    rcases List.mem_map.mp hmem with ⟨p, hp, he⟩
    have h1 : n + 1 ≤ p.1 := fst_ge_of_mem_enumRecords ts (n + 1) p hp
    have h2 : p.1 = n := congrArg Prod.snd he
    omega

theorem optKeys_nodup (routes : List TrainRouteBlock) : (optKeys routes).Nodup :=
  optKeys_nodup_from routes 0

theorem weightsDict_keys (routes : List TrainRouteBlock) :
    (weightsDict routes).map Prod.fst = optKeys routes := by
  unfold weightsDict optKeys
  rw [List.map_map]
  rfl

/-- C3 (amended form): the solver's objective is the priority-weighted sum of
segment end times scaled by `max_time_sec + 1000`, plus the makespan as a
tie-breaker term. -/
theorem objective_weighted_ends_plus_makespan (max_time_sec now_sec : Int)
    (routes : List TrainRouteBlock) (ends : String × Nat → Int) :
    codeObjective max_time_sec now_sec routes ends
      = (max_time_sec + 1000) *
          ((enumRecords 0 routes).map
            (fun p => priorityWeight p.2.priority * ends (p.2.train_id, p.1))).sum
        + makespanVal now_sec routes ends := by
  simp only [codeObjective, linearSum]
  have hkeys : optKeys routes = (weightsDict routes).map Prod.fst :=
    (weightsDict_keys routes).symm
  have hnodup : ((weightsDict routes).map Prod.fst).Nodup := by
    rw [weightsDict_keys]; exact optKeys_nodup routes
  rw [hkeys, zip_self_lookup _ 20 hnodup]
  simp only [weightsDict, List.map_map]
  rw [Int.mul_comm]
  rfl

/-- C3 counterexample: the objective handed to the solver is not the makespan.
There are two assignments where the makespan strictly prefers the second while
the solver's objective strictly prefers the first, and the two objective
functions differ outright at the first assignment. -/
theorem objective_is_not_makespan :
    (specObjective 0 c3Routes c3EndsB < specObjective 0 c3Routes c3EndsA
      ∧ codeObjective 3600 0 c3Routes c3EndsA < codeObjective 3600 0 c3Routes c3EndsB)
    ∧ codeObjective 3600 0 c3Routes c3EndsA ≠ specObjective 0 c3Routes c3EndsA := by
  decide

theorem foldl_append_eq_flatMap {α β : Type} (f : α → List β) (l : List α) :
    ∀ init : List β, l.foldl (fun acc t => acc ++ f t) init = init ++ l.flatMap f := by
  induction l with
  | nil => intro init; simp
  | cons t ts ih =>
    intro init
    simp only [List.foldl_cons, List.flatMap_cons, ih (init ++ f t), List.append_assoc]

theorem range'_map_getD_eq_drop_map {α β : Type} [Inhabited α] (g : α → β) (d : α) :
    ∀ (n : Nat) (l : List α) (i : Nat), l.length = i + n →
      (List.range' i n).map (fun idx => g (l.getD idx d)) = (l.drop i).map g := by
  intro n
  induction n with
  | zero =>
    intro l i hlen
    have : l.drop i = [] := List.drop_eq_nil_of_le (by omega)
    simp [this]
  | succ m ih =>
    intro l i hlen
    have hi : i < l.length := by omega
    rw [List.range'_succ, List.map_cons, List.drop_eq_getElem_cons hi, List.map_cons]
    congr 1
    · rw [List.getD_eq_getElem?_getD, List.getElem?_eq_getElem hi]
      simp
    · exact ih l (i + 1) (by omega)

/-- C4 (amended form): `optimize_from_sim` builds, for each train in snapshot
order, exactly one record per block id of the route slice from
`route_index + 1` through the last index; trains whose `route_index + 1`
reaches past the route contribute no records. -/
theorem buildRoutes_eq_drop_slices (snap : Snapshot) :
    buildRoutes snap = snap.trains.flatMap (fun t =>
      (t.route.drop (t.route_index + 1)).map
        (mkSeg (snapBlocksIdx snap) (max 0 snap.params.dwell_sec)
          snap.params.default_speed_kmh t.id t.priority)) := by
  unfold buildRoutes
  rw [foldl_append_eq_flatMap, List.nil_append]
  apply List.flatMap_congr
  intro t _
  unfold trainSegs
  by_cases hle : t.route.length ≤ t.route_index + 1
  · rw [if_pos hle]
    rw [List.drop_eq_nil_of_le hle]
    simp
  · rw [if_neg hle]
    exact range'_map_getD_eq_drop_map _ "" _ t.route (t.route_index + 1) (by omega)

/-- C4 counterexample: at a concrete snapshot (one train at `route_index = 0`
on a two-block route) the code builds one segment (for `B2` only), whereas the
claimed clamp-based slice would build two (for `B1` and `B2`). -/
theorem buildRoutes_differs_from_claimed :
    (buildRoutes c4Snap).length = 1
    ∧ (buildRoutesClaimed c4Snap).length = 2
    ∧ buildRoutes c4Snap ≠ buildRoutesClaimed c4Snap := by
  decide

/-! ### C6: step is a frame-preserving no-op outside RUNNING -/

/-- C6: unless the engine status is RUNNING - in particular once it is
COMPLETED - `step` returns the empty event list and leaves the whole state
(clock, tick counter, blocks, trains, plan, counters, events) unchanged. -/
theorem step_noop_unless_running (s : SimState)
    (h : s.status ≠ SimulationStatus.RUNNING) : step s = (s, []) := by
  unfold step
  rw [if_neg h]

/-- Witness for C6 at a concrete COMPLETED state. -/
theorem step_noop_unless_running_witness :
    ({ initialSimState 0 with status := SimulationStatus.COMPLETED } : SimState).status
        ≠ SimulationStatus.RUNNING
    ∧ step { initialSimState 0 with status := SimulationStatus.COMPLETED }
        = ({ initialSimState 0 with status := SimulationStatus.COMPLETED }, []) :=
  ⟨by decide, step_noop_unless_running _ (by decide)⟩

/-! ### C5 and C10: unknown-id handling and plan replacement -/

/-- C5 (amended): `inject_delay` and `set_block_issue` reject an unknown id
with a validation error before any mutation, so the caller's engine state is
untouched; `apply_plan`, however, performs no id validation - it always
replaces the active plan and indexes every hold of the given plan, unknown
train or block ids included. -/
theorem unknown_id_rejected_but_apply_plan_unvalidated (s : SimState) :
    (∀ tid m, dget tid s.trains = none →
        injectDelay tid m s = .error ("Train " ++ tid ++ " not found"))
  ∧ (∀ bid bl, dget bid s.blocks = none →
        setBlockIssue bid bl s = .error ("Block " ++ bid ++ " not found"))
  ∧ (∀ p, (applyPlan p s).active_plan = some p)
  ∧ (∀ p, ∀ h ∈ p.holds,
      (dget (holdKey h.train_id h.block_id) (applyPlan p s).holds_index).isSome) := by
  refine ⟨?_, ?_, fun p => rfl, ?_⟩
  · intro tid m hd
    simp only [injectDelay, hd]
  · intro bid bl hd
    simp only [setBlockIssue, hd]
  · intro p h hm
    show (dget (holdKey h.train_id h.block_id) (buildHoldsIndex p s.sim_time)).isSome
    unfold buildHoldsIndex
    rw [dget_foldl_dinsert (fun h => holdKey h.train_id h.block_id)
      (fun h => s.sim_time + (h.not_before_offset_sec : Rat)) p.holds []]
    cases hfind : p.holds.reverse.find?
        (fun g => decide (holdKey g.train_id g.block_id = holdKey h.train_id h.block_id)) with
    | some g => simp
    | none =>
      exfalso
      have : ∀ g ∈ p.holds.reverse,
          ¬(fun g => decide (holdKey g.train_id g.block_id = holdKey h.train_id h.block_id)) g
            = true := by
        intro g hg
        exact (List.find?_eq_none.mp hfind) g hg
      have hh := this h (List.mem_reverse.mpr hm)
      simp at hh

/-- C5 counterexample: applying a plan whose hold names a train id and a block
id that are unknown to the engine is not rejected - the holds index changes. -/
theorem apply_plan_unknown_id_not_rejected :
    dget "ZZ" (initialSimState 0).trains = none
    ∧ dget "YY" (initialSimState 0).blocks = none
    ∧ (applyPlan ⟨[⟨"ZZ", "YY", 5⟩]⟩ (initialSimState 0)).holds_index
        ≠ (initialSimState 0).holds_index := by
  decide

/-- Witness for C5 at concrete unknown ids. -/
theorem unknown_id_rejected_witness :
    injectDelay "T9" 5 (initialSimState 0) = .error "Train T9 not found"
    ∧ setBlockIssue "B99" true (initialSimState 0) = .error "Block B99 not found"
    ∧ (dget (holdKey "ZZ" "YY")
        (applyPlan ⟨[⟨"ZZ", "YY", 5⟩]⟩ (initialSimState 0)).holds_index).isSome := by
  have H := unknown_id_rejected_but_apply_plan_unvalidated (initialSimState 0)
  exact ⟨H.1 "T9" 5 (by decide), H.2.1 "B99" true (by decide),
    H.2.2.2 ⟨[⟨"ZZ", "YY", 5⟩]⟩ ⟨"ZZ", "YY", 5⟩ (by decide)⟩

/-- C10 (amended): `apply_plan` replaces the hold state wholesale: the given
plan becomes the active plan, the rebuilt index has pairwise-distinct keys -
one entry per distinct `train_id|block_id` key among the plan's holds - and
looking any key up yields `sim_time_at_apply + offset` of the *last* hold of
the plan with that key (so nothing from a previously applied plan survives,
and of several holds sharing a key only the last is kept); `clear_plan` drops
the plan and empties the index. -/
theorem apply_plan_replaces_hold_state (s : SimState) (p : Plan) :
    (applyPlan p s).active_plan = some p
  ∧ (((applyPlan p s).holds_index.map Prod.fst)).Nodup
  ∧ (∀ k, dget k (applyPlan p s).holds_index
        = match p.holds.reverse.find?
            (fun h => decide (holdKey h.train_id h.block_id = k)) with
          | some h => some (s.sim_time + (h.not_before_offset_sec : Rat))
          | none => none)
  ∧ clearPlan s = { s with active_plan := none, holds_index := [] } := by
  refine ⟨rfl, ?_, ?_, rfl⟩
  · show (((buildHoldsIndex p s.sim_time).map Prod.fst)).Nodup
    unfold buildHoldsIndex
    exact keys_foldl_dinsert_nodup _ _ p.holds [] (by simp)
  · intro k
    show dget k (buildHoldsIndex p s.sim_time) = _
    unfold buildHoldsIndex
    rw [dget_foldl_dinsert (fun h => holdKey h.train_id h.block_id)
      (fun h => s.sim_time + (h.not_before_offset_sec : Rat)) p.holds [] k]
    cases p.holds.reverse.find? (fun h => decide (holdKey h.train_id h.block_id = k)) with
    | some g => rfl
    | none => rfl

theorem scalarFrame_refl (s : SimState) : ScalarFrame s s :=
  ⟨rfl, rfl, rfl, rfl, rfl, rfl, rfl, rfl, rfl, rfl, rfl, rfl⟩

theorem scalarFrame_trans {s1 s2 s3 : SimState}
    (h1 : ScalarFrame s1 s2) (h2 : ScalarFrame s2 s3) : ScalarFrame s1 s3 := by
  obtain ⟨a1, b1, c1, d1, e1, f1, g1, h1', i1, j1, k1, l1⟩ := h1
  obtain ⟨a2, b2, c2, d2, e2, f2, g2, h2', i2, j2, k2, l2⟩ := h2
  exact ⟨a2.trans a1, b2.trans b1, c2.trans c1, d2.trans d1, e2.trans e1, f2.trans f1,
    g2.trans g1, h2'.trans h1', i2.trans i1, j2.trans j1, k2.trans k1, l2.trans l1⟩

theorem dwellUpdate_current_block (s : SimState) (cur : Block) (t : Train) :
    (dwellUpdate s cur t).current_block = t.current_block := by
  unfold dwellUpdate
  repeat' split
  all_goals rfl

theorem dwellUpdate_route (s : SimState) (cur : Block) (t : Train) :
    (dwellUpdate s cur t).route = t.route := by
  unfold dwellUpdate
  repeat' split
  all_goals rfl

theorem dwellUpdate_route_index (s : SimState) (cur : Block) (t : Train) :
    (dwellUpdate s cur t).route_index = t.route_index := by
  unfold dwellUpdate
  repeat' split
  all_goals rfl

theorem dwellUpdate_will_exit_at (s : SimState) (cur : Block) (t : Train) :
    (dwellUpdate s cur t).will_exit_at = t.will_exit_at := by
  unfold dwellUpdate
  repeat' split
  all_goals rfl

theorem waitTick_current_block (s : SimState) (t : Train) :
    (waitTick s t).current_block = t.current_block := by
  simp only [waitTick]
  split
  all_goals rfl

theorem stillTraversing_set_trains (s : SimState) (tr : List (String × Train))
    (t : Train) : stillTraversing { s with trains := tr } t = stillTraversing s t := rfl

theorem holdGate_set_trains (s : SimState) (tr : List (String × Train))
    (tid nb : String) : holdGate { s with trains := tr } tid nb = holdGate s tid nb := rfl

theorem canEnterNextBlock_set_trains (s : SimState) (tr : List (String × Train))
    (bid : String) :
    canEnterNextBlock { s with trains := tr } bid = canEnterNextBlock s bid := rfl

theorem waitTick_set_trains (s : SimState) (tr : List (String × Train)) (t : Train) :
    waitTick { s with trains := tr } t = waitTick s t := rfl

theorem processTrain_no_train (s : SimState) (tid : String)
    (h1 : dget tid s.trains = none) : processTrain s tid = (s, []) := by
  simp only [processTrain, h1]

theorem processTrain_no_block (s : SimState) (tid : String) (train0 : Train)
    (h1 : dget tid s.trains = some train0)
    (h2 : dget train0.current_block s.blocks = none) :
    processTrain s tid = (s, []) := by
  simp only [processTrain, h1, h2]

theorem processTrain_traversing (s : SimState) (tid : String) (train0 : Train)
    (cur_block : Block)
    (h1 : dget tid s.trains = some train0)
    (h2 : dget train0.current_block s.blocks = some cur_block)
    (h3 : stillTraversing s (dwellUpdate s cur_block train0) = true) :
    processTrain s tid
      = ({ s with trains := dinsert tid (dwellUpdate s cur_block train0) s.trains }, []) := by
  simp only [processTrain, h1, h2, stillTraversing_set_trains, h3, if_true]

theorem processTrain_at_end (s : SimState) (tid : String) (train0 : Train)
    (cur_block : Block)
    (h1 : dget tid s.trains = some train0)
    (h2 : dget train0.current_block s.blocks = some cur_block)
    (h3 : stillTraversing s (dwellUpdate s cur_block train0) = false)
    (h4 : train0.route.length - 1 ≤ train0.route_index) :
    processTrain s tid
      = ({ s with trains := dinsert tid (dwellUpdate s cur_block train0) s.trains }, []) := by
  simp only [processTrain, h1, h2, stillTraversing_set_trains, h3, Bool.false_eq_true,
    if_false, dwellUpdate_route, dwellUpdate_route_index, if_pos h4]

theorem processTrain_no_next (s : SimState) (tid : String) (train0 : Train)
    (cur_block : Block)
    (h1 : dget tid s.trains = some train0)
    (h2 : dget train0.current_block s.blocks = some cur_block)
    (h3 : stillTraversing s (dwellUpdate s cur_block train0) = false)
    (h4 : ¬ train0.route.length - 1 ≤ train0.route_index)
    (h5 : train0.route.get? (train0.route_index + 1) = none) :
    processTrain s tid
      = ({ s with trains := dinsert tid (dwellUpdate s cur_block train0) s.trains }, []) := by
  simp only [processTrain, h1, h2, stillTraversing_set_trains, h3, Bool.false_eq_true,
    if_false, dwellUpdate_route, dwellUpdate_route_index, if_neg h4, h5]

theorem processTrain_gated (s : SimState) (tid : String) (train0 : Train)
    (cur_block : Block) (nb : String)
    (h1 : dget tid s.trains = some train0)
    (h2 : dget train0.current_block s.blocks = some cur_block)
    (h3 : stillTraversing s (dwellUpdate s cur_block train0) = false)
    (h4 : ¬ train0.route.length - 1 ≤ train0.route_index)
    (h5 : train0.route.get? (train0.route_index + 1) = some nb)
    (h6 : holdGate s tid nb = true) :
    processTrain s tid
      = ({ s with
            trains := dinsert tid (waitTick s (dwellUpdate s cur_block train0)) s.trains },
         []) := by
  simp only [processTrain, h1, h2, stillTraversing_set_trains, h3, Bool.false_eq_true,
    if_false, dwellUpdate_route, dwellUpdate_route_index, if_neg h4, h5,
    holdGate_set_trains, h6, if_true, trainWait, waitTick_set_trains,
    dinsert_dinsert_same]

theorem processTrain_blocked (s : SimState) (tid : String) (train0 : Train)
    (cur_block : Block) (nb : String)
    (h1 : dget tid s.trains = some train0)
    (h2 : dget train0.current_block s.blocks = some cur_block)
    (h3 : stillTraversing s (dwellUpdate s cur_block train0) = false)
    (h4 : ¬ train0.route.length - 1 ≤ train0.route_index)
    (h5 : train0.route.get? (train0.route_index + 1) = some nb)
    (h6 : holdGate s tid nb = false)
    (h7 : canEnterNextBlock s nb = false) :
    processTrain s tid
      = ({ s with
            trains := dinsert tid (waitTick s (dwellUpdate s cur_block train0)) s.trains },
         []) := by
  simp only [processTrain, h1, h2, stillTraversing_set_trains, h3, Bool.false_eq_true,
    if_false, dwellUpdate_route, dwellUpdate_route_index, if_neg h4, h5,
    holdGate_set_trains, h6, canEnterNextBlock_set_trains, h7, Bool.not_false, if_true,
    trainWait, waitTick_set_trains, dinsert_dinsert_same]

theorem processTrain_moves (s : SimState) (tid : String) (train0 : Train)
    (cur_block : Block) (nb : String)
    (h1 : dget tid s.trains = some train0)
    (h2 : dget train0.current_block s.blocks = some cur_block)
    (h3 : stillTraversing s (dwellUpdate s cur_block train0) = false)
    (h4 : ¬ train0.route.length - 1 ≤ train0.route_index)
    (h5 : train0.route.get? (train0.route_index + 1) = some nb)
    (h6 : holdGate s tid nb = false)
    (h7 : canEnterNextBlock s nb = true) :
    processTrain s tid
      = trainMove { s with trains := dinsert tid (dwellUpdate s cur_block train0) s.trains }
          tid (dwellUpdate s cur_block train0) cur_block nb := by
  simp only [processTrain, h1, h2, stillTraversing_set_trains, h3, Bool.false_eq_true,
    if_false, dwellUpdate_route, dwellUpdate_route_index, if_neg h4, h5,
    holdGate_set_trains, h6, canEnterNextBlock_set_trains, h7, Bool.not_true, if_true]

theorem canEnter_block_isSome (s : SimState) (bid : String)
    (h : canEnterNextBlock s bid = true) : (dget bid s.blocks).isSome = true := by
  unfold canEnterNextBlock at h
  cases hd : dget bid s.blocks with
  | none => rw [hd] at h; cases h
  | some b => rfl

/-- Specification of the depart-and-enter tail: scalar fields, key sets, other
trains and the shape of block mutations, plus the fact that the moved train
ends up in the target block. -/
theorem trainMove_spec (s : SimState) (tid : String) (train : Train)
    (cur_block : Block) (nb : String)
    (hcur : dget train.current_block s.blocks = some cur_block)
    (htid : (dget tid s.trains).isSome = true)
    (hnb : (dget nb s.blocks).isSome = true) :
    ScalarFrame s (trainMove s tid train cur_block nb).1
  ∧ (trainMove s tid train cur_block nb).1.trains.map Prod.fst = s.trains.map Prod.fst
  ∧ (trainMove s tid train cur_block nb).1.blocks.map Prod.fst = s.blocks.map Prod.fst
  ∧ (∀ tid', tid' ≠ tid →
      dget tid' (trainMove s tid train cur_block nb).1.trains = dget tid' s.trains)
  ∧ (∀ k b', dget k (trainMove s tid train cur_block nb).1.blocks = some b' →
      ∃ b, dget k s.blocks = some b ∧ b'.station_id = b.station_id ∧
        (b'.last_exit_time = b.last_exit_time ∨ b'.last_exit_time = some s.sim_time))
  ∧ (∀ t', dget tid (trainMove s tid train cur_block nb).1.trains = some t' →
      t'.current_block = nb) := by
  obtain ⟨w, hw⟩ := Option.isSome_iff_exists.mp htid
  simp only [trainMove, createEvent]
  cases hnx : dget nb (dinsert train.current_block
      { cur_block with occupied_by := none, last_exit_time := some s.sim_time } s.blocks) with
  | none =>
    exfalso
    by_cases hknb : nb = train.current_block
    · rw [hknb, dget_dinsert_self] at hnx
      cases hnx
    · rw [dget_dinsert_ne _ _ _ _ hknb] at hnx
      rw [(dget_none_iff _ _).mpr] at hnb
      · cases hnb
      · exact (dget_none_iff _ _).mp hnx
  | some nxt =>
    dsimp only
    have hblocks : ∀ k b', dget k (dinsert nb { nxt with occupied_by := some tid }
        (dinsert train.current_block
          { cur_block with occupied_by := none, last_exit_time := some s.sim_time }
          s.blocks)) = some b' →
        ∃ b, dget k s.blocks = some b ∧ b'.station_id = b.station_id ∧
          (b'.last_exit_time = b.last_exit_time ∨ b'.last_exit_time = some s.sim_time) := by
      intro k b' hb'
      by_cases hknb : k = nb
      · subst hknb
        rw [dget_dinsert_self] at hb'
        cases hb'
        by_cases hkc : k = train.current_block
        · rw [hkc, dget_dinsert_self] at hnx
          cases hnx
          refine ⟨cur_block, hkc ▸ hcur, rfl, Or.inr rfl⟩
        · rw [dget_dinsert_ne _ _ _ _ hkc] at hnx
          exact ⟨nxt, hnx, rfl, Or.inl rfl⟩
      · rw [dget_dinsert_ne _ _ _ _ hknb] at hb'
        by_cases hkc : k = train.current_block
        · subst hkc
          rw [dget_dinsert_self] at hb'
          cases hb'
          exact ⟨cur_block, hcur, rfl, Or.inr rfl⟩
        · rw [dget_dinsert_ne _ _ _ _ hkc] at hb'
          exact ⟨b', hb', rfl, Or.inl rfl⟩
    have hbkeys : (dinsert nb { nxt with occupied_by := some tid }
        (dinsert train.current_block
          { cur_block with occupied_by := none, last_exit_time := some s.sim_time }
          s.blocks)).map Prod.fst = s.blocks.map Prod.fst := by
      rw [keys_dinsert_of_dget _ _ nxt _ hnx, keys_dinsert_of_dget _ _ cur_block _ hcur]
    by_cases hst : nxt.station_id.isSome
    · rw [if_pos hst]
      refine ⟨⟨rfl, rfl, rfl, rfl, rfl, rfl, rfl, rfl, rfl, rfl, rfl, rfl⟩,
        keys_dinsert_of_dget _ _ w _ hw, hbkeys, ?_, hblocks, ?_⟩
      · intro tid' hne
        exact dget_dinsert_ne _ _ _ _ hne
      · intro t' ht'
        rw [dget_dinsert_self] at ht'
        cases ht'
        rfl
    · rw [if_neg hst]
      refine ⟨⟨rfl, rfl, rfl, rfl, rfl, rfl, rfl, rfl, rfl, rfl, rfl, rfl⟩,
        keys_dinsert_of_dget _ _ w _ hw, hbkeys, ?_, hblocks, ?_⟩
      · intro tid' hne
        exact dget_dinsert_ne _ _ _ _ hne
      · intro t' ht'
        rw [dget_dinsert_self] at ht'
        cases ht'
        rfl

theorem bool_eq_false {b : Bool} (h : ¬ b = true) : b = false := by
  cases b
  · rfl
  · exact absurd rfl h

/-- Common shape of all the no-move outcomes of `_process_train`: only the
processed train's record changes, and its position does not. -/
theorem waitShape_spec (s : SimState) (tid : String) (train0 X : Train)
    (h1 : dget tid s.trains = some train0)
    (hX : X.current_block = train0.current_block) :
    ScalarFrame s ({ s with trains := dinsert tid X s.trains } : SimState)
  ∧ ({ s with trains := dinsert tid X s.trains } : SimState).trains.map Prod.fst
      = s.trains.map Prod.fst
  ∧ ({ s with trains := dinsert tid X s.trains } : SimState).blocks.map Prod.fst
      = s.blocks.map Prod.fst
  ∧ (∀ tid', tid' ≠ tid →
      dget tid' ({ s with trains := dinsert tid X s.trains } : SimState).trains
        = dget tid' s.trains)
  ∧ (∀ k b', dget k ({ s with trains := dinsert tid X s.trains } : SimState).blocks
        = some b' →
      ∃ b, dget k s.blocks = some b ∧ b'.station_id = b.station_id ∧
        (b'.last_exit_time = b.last_exit_time ∨ b'.last_exit_time = some s.sim_time))
  ∧ (∀ t t', dget tid s.trains = some t →
      dget tid ({ s with trains := dinsert tid X s.trains } : SimState).trains = some t' →
      (t'.current_block = t.current_block ∨
        ∃ nb, t.route.get? (t.route_index + 1) = some nb ∧ t'.current_block = nb ∧
          holdGate s tid nb = false ∧ canEnterNextBlock s nb = true)) := by
  refine ⟨⟨rfl, rfl, rfl, rfl, rfl, rfl, rfl, rfl, rfl, rfl, rfl, rfl⟩,
    keys_dinsert_of_dget _ _ train0 _ h1, rfl, ?_, ?_, ?_⟩
  · intro tid' hne
    exact dget_dinsert_ne _ _ _ _ hne
  · intro k b' hb'
    exact ⟨b', hb', rfl, Or.inl rfl⟩
  · intro t t' ht ht'
    rw [h1] at ht
    obtain rfl := Option.some.inj ht
    rw [dget_dinsert_self] at ht'
    obtain rfl := Option.some.inj ht'
    exact Or.inl hX

/-- Master case analysis of `_process_train`: frame facts plus the movement
characterization used by the gating and headway invariants. -/
theorem processTrain_spec (s : SimState) (tid : String) :
    ScalarFrame s (processTrain s tid).1
  ∧ (processTrain s tid).1.trains.map Prod.fst = s.trains.map Prod.fst
  ∧ (processTrain s tid).1.blocks.map Prod.fst = s.blocks.map Prod.fst
  ∧ (∀ tid', tid' ≠ tid → dget tid' (processTrain s tid).1.trains = dget tid' s.trains)
  ∧ (∀ k b', dget k (processTrain s tid).1.blocks = some b' →
      ∃ b, dget k s.blocks = some b ∧ b'.station_id = b.station_id ∧
        (b'.last_exit_time = b.last_exit_time ∨ b'.last_exit_time = some s.sim_time))
  ∧ (∀ t t', dget tid s.trains = some t →
      dget tid (processTrain s tid).1.trains = some t' →
      (t'.current_block = t.current_block ∨
        ∃ nb, t.route.get? (t.route_index + 1) = some nb ∧ t'.current_block = nb ∧
          holdGate s tid nb = false ∧ canEnterNextBlock s nb = true)) := by
  rcases Option.eq_none_or_eq_some (dget tid s.trains) with h1 | ⟨train0, h1⟩
  · rw [processTrain_no_train s tid h1]
    refine ⟨scalarFrame_refl s, rfl, rfl, fun _ _ => rfl, ?_, ?_⟩
    · intro k b' hb'
      exact ⟨b', hb', rfl, Or.inl rfl⟩
    · intro t t' ht _
      rw [h1] at ht
      cases ht
  · rcases Option.eq_none_or_eq_some (dget train0.current_block s.blocks) with h2 | ⟨cur_block, h2⟩
    · rw [processTrain_no_block s tid train0 h1 h2]
      refine ⟨scalarFrame_refl s, rfl, rfl, fun _ _ => rfl, ?_, ?_⟩
      · intro k b' hb'
        exact ⟨b', hb', rfl, Or.inl rfl⟩
      · intro t t' ht ht'
        have ht'' : dget tid s.trains = some t' := ht'
        rw [h1] at ht ht''
        obtain rfl := Option.some.inj ht
        obtain rfl := Option.some.inj ht''
        exact Or.inl rfl
    · by_cases h3 : stillTraversing s (dwellUpdate s cur_block train0) = true
      · rw [processTrain_traversing s tid train0 cur_block h1 h2 h3]
        exact waitShape_spec s tid train0 _ h1 (dwellUpdate_current_block s cur_block train0)
      · have h3' := bool_eq_false h3
        by_cases h4 : train0.route.length - 1 ≤ train0.route_index
        · rw [processTrain_at_end s tid train0 cur_block h1 h2 h3' h4]
          exact waitShape_spec s tid train0 _ h1 (dwellUpdate_current_block s cur_block train0)
        · rcases Option.eq_none_or_eq_some (train0.route.get? (train0.route_index + 1)) with
            h5 | ⟨nb, h5⟩
          · rw [processTrain_no_next s tid train0 cur_block h1 h2 h3' h4 h5]
            exact waitShape_spec s tid train0 _ h1 (dwellUpdate_current_block s cur_block train0)
          ·
            by_cases h6 : holdGate s tid nb = true
            · rw [processTrain_gated s tid train0 cur_block nb h1 h2 h3' h4 h5 h6]
              exact waitShape_spec s tid train0 _ h1
                ((waitTick_current_block s _).trans (dwellUpdate_current_block s cur_block train0))
            · have h6' := bool_eq_false h6
              by_cases h7 : canEnterNextBlock s nb = true
              · rw [processTrain_moves s tid train0 cur_block nb h1 h2 h3' h4 h5 h6' h7]
                have hcur1 : dget (dwellUpdate s cur_block train0).current_block
                    ({ s with trains := dinsert tid (dwellUpdate s cur_block train0) s.trains } :
                      SimState).blocks = some cur_block := by
                  rw [dwellUpdate_current_block]
                  exact h2
                have htid1 : (dget tid
                    ({ s with trains := dinsert tid (dwellUpdate s cur_block train0) s.trains } :
                      SimState).trains).isSome = true := by
                  show (dget tid (dinsert tid (dwellUpdate s cur_block train0) s.trains)).isSome
                    = true
                  rw [dget_dinsert_self]
                  rfl
                have hnb1 : (dget nb
                    ({ s with trains := dinsert tid (dwellUpdate s cur_block train0) s.trains } :
                      SimState).blocks).isSome = true :=
                  canEnter_block_isSome s nb h7
                have SPEC := trainMove_spec _ tid (dwellUpdate s cur_block train0) cur_block nb
                  hcur1 htid1 hnb1
                refine ⟨scalarFrame_trans ⟨rfl, rfl, rfl, rfl, rfl, rfl, rfl, rfl, rfl, rfl,
                    rfl, rfl⟩ SPEC.1,
                  SPEC.2.1.trans (keys_dinsert_of_dget _ _ train0 _ h1), SPEC.2.2.1, ?_,
                  SPEC.2.2.2.2.1, ?_⟩
                · intro tid' hne
                  rw [SPEC.2.2.2.1 tid' hne]
                  show dget tid' (dinsert tid (dwellUpdate s cur_block train0) s.trains)
                    = dget tid' s.trains
                  exact dget_dinsert_ne _ _ _ _ hne
                · intro t t' ht ht'
                  rw [h1] at ht
                  obtain rfl := Option.some.inj ht
                  exact Or.inr ⟨nb, h5, SPEC.2.2.2.2.2 t' ht', h6', h7⟩
              · have h7' := bool_eq_false h7
                rw [processTrain_blocked s tid train0 cur_block nb h1 h2 h3' h4 h5 h6' h7']
                exact waitShape_spec s tid train0 _ h1
                  ((waitTick_current_block s _).trans
                    (dwellUpdate_current_block s cur_block train0))

theorem runTrains_invariant (s : SimState) (P : SimState → Prop) (h0 : P s)
    (hstep : ∀ u tid, P u → tid ∈ s.trains.map Prod.fst → P (processTrain u tid).1) :
    P (runTrains s).1 := by
  have H : ∀ (l : List String) (acc : SimState × List EventMessage), P acc.1 →
      (∀ tid ∈ l, tid ∈ s.trains.map Prod.fst) →
      P (l.foldl (fun acc tid =>
        let r := processTrain acc.1 tid
        (r.1, acc.2 ++ r.2)) acc).1 := by
    intro l
    induction l with
    | nil => intro acc ha _; exact ha
    | cons t ts ih =>
      intro acc ha hm
      exact ih _ (hstep acc.1 t ha (hm t (List.mem_cons_self t ts)))
        (fun tid htid => hm tid (List.mem_cons_of_mem _ htid))
  exact H _ (s, []) h0 (fun tid h => h)

theorem runTrains_scalarFrame (s : SimState) : ScalarFrame s (runTrains s).1 :=
  runTrains_invariant s (fun u => ScalarFrame s u) (scalarFrame_refl s)
    (fun u tid hu _ => scalarFrame_trans hu (processTrain_spec u tid).1)

theorem runTrains_train_keys (s : SimState) :
    (runTrains s).1.trains.map Prod.fst = s.trains.map Prod.fst :=
  runTrains_invariant s (fun u => u.trains.map Prod.fst = s.trains.map Prod.fst) rfl
    (fun u tid hu _ => ((processTrain_spec u tid).2.1).trans hu)

theorem runTrains_block_keys (s : SimState) :
    (runTrains s).1.blocks.map Prod.fst = s.blocks.map Prod.fst :=
  runTrains_invariant s (fun u => u.blocks.map Prod.fst = s.blocks.map Prod.fst) rfl
    (fun u tid hu _ => ((processTrain_spec u tid).2.2.1).trans hu)

/-- On the RUNNING, non-completed path, the post-movement phases of `step`
(idle fuse, completion detection, completion event) touch none of the fields
listed here. -/
theorem step_main_frame (s : SimState) (hrun : s.status = SimulationStatus.RUNNING)
    (hnc : s.completed = false) :
    (step s).1.trains = (runTrains (advanceTick s)).1.trains
  ∧ (step s).1.sim_time = (runTrains (advanceTick s)).1.sim_time
  ∧ (step s).1.holds_index = (runTrains (advanceTick s)).1.holds_index
  ∧ (step s).1.active_plan = (runTrains (advanceTick s)).1.active_plan
  ∧ (step s).1.blocks = (runTrains (advanceTick s)).1.blocks
  ∧ (step s).1.base_tick_sec = (runTrains (advanceTick s)).1.base_tick_sec
  ∧ (step s).1.simulation_speed = (runTrains (advanceTick s)).1.simulation_speed
  ∧ (step s).1.headway_sec = (runTrains (advanceTick s)).1.headway_sec := by
  simp only [step]
  rw [if_pos hrun, if_neg (show ¬ s.completed = true by simp [hnc])]
  repeat' split
  all_goals exact ⟨rfl, rfl, rfl, rfl, rfl, rfl, rfl, rfl⟩

/-- `step` never changes the plan state. -/
theorem step_plan_frame (s : SimState) :
    (step s).1.holds_index = s.holds_index ∧ (step s).1.active_plan = s.active_plan := by
  by_cases hrun : s.status = SimulationStatus.RUNNING
  · by_cases hc : s.completed = true
    · unfold step
      rw [if_pos hrun, if_pos hc]
      exact ⟨rfl, rfl⟩
    · have hm := step_main_frame s hrun (bool_eq_false hc)
      have hf := runTrains_scalarFrame (advanceTick s)
      exact ⟨hm.2.2.1.trans hf.2.1, hm.2.2.2.1.trans hf.2.2.1⟩
  · unfold step
    rw [if_neg hrun]
    exact ⟨rfl, rfl⟩

theorem step_not_running (s : SimState) (h : ¬ s.status = SimulationStatus.RUNNING) :
    step s = (s, []) := by
  unfold step
  rw [if_neg h]

theorem step_already_completed (s : SimState) (hrun : s.status = SimulationStatus.RUNNING)
    (hc : s.completed = true) : step s = (s, []) := by
  unfold step
  rw [if_pos hrun, if_pos hc]

theorem step_train_keys (s : SimState) :
    (step s).1.trains.map Prod.fst = s.trains.map Prod.fst := by
  by_cases hrun : s.status = SimulationStatus.RUNNING
  · by_cases hc : s.completed = true
    · rw [step_already_completed s hrun hc]
    · rw [(step_main_frame s hrun (bool_eq_false hc)).1]
      exact runTrains_train_keys (advanceTick s)
  · rw [step_not_running s hrun]

theorem engineInv_step (s : SimState) (h : EngineInv s) : EngineInv (step s).1 := by
  obtain ⟨hplan, htimes, hbase, hspeed, hnodup⟩ := h
  by_cases hrun : s.status = SimulationStatus.RUNNING
  · by_cases hc : s.completed = true
    · rw [step_already_completed s hrun hc]
      exact ⟨hplan, htimes, hbase, hspeed, hnodup⟩
    · have hm := step_main_frame s hrun (bool_eq_false hc)
      have hpos : (0 : Rat) < tickAmount s := mul_pos hbase hspeed
      have hfold : (runTrains (advanceTick s)).1.sim_time = (advanceTick s).sim_time
          ∧ timesOK (runTrains (advanceTick s)).1 := by
        refine runTrains_invariant (advanceTick s)
          (fun u => u.sim_time = (advanceTick s).sim_time ∧ timesOK u) ⟨rfl, ?_⟩ ?_
        · intro k b le hb hle
          have h1 : le ≤ s.sim_time := htimes k b le hb hle
          show le ≤ s.sim_time + tickAmount s
          linarith
        · intro u tid hu _
          obtain ⟨hsim, htOK⟩ := hu
          have SPEC := processTrain_spec u tid
          refine ⟨SPEC.1.1.trans hsim, ?_⟩
          intro k b le hb hle
          rcases SPEC.2.2.2.2.1 k b hb with ⟨b0, hb0, _, hl | hl⟩
          · rw [SPEC.1.1, hsim]
            rw [hl] at hle
            have := htOK k b0 le hb0 hle
            rw [hsim] at this
            exact this
          · rw [hl] at hle
            obtain rfl := Option.some.inj hle
            rw [SPEC.1.1]
      refine ⟨?_, ?_, ?_, ?_, ?_⟩
      · intro ha
        rw [hm.2.2.1, (runTrains_scalarFrame (advanceTick s)).2.1]
        show s.holds_index = []
        apply hplan
        rw [hm.2.2.2.1, (runTrains_scalarFrame (advanceTick s)).2.2.1] at ha
        exact ha
      · intro k b le hb hle
        rw [hm.2.2.2.2.1] at hb
        rw [hm.2.1, hfold.1]
        have := hfold.2 k b le hb hle
        rw [hfold.1] at this
        exact this
      · rw [hm.2.2.2.2.2.1, (runTrains_scalarFrame (advanceTick s)).2.2.2.1]
        exact hbase
      · rw [hm.2.2.2.2.2.2.1, (runTrains_scalarFrame (advanceTick s)).2.2.2.2.1]
        exact hspeed
      · rw [step_train_keys s]
        exact hnodup
  · rw [step_not_running s hrun]
    exact ⟨hplan, htimes, hbase, hspeed, hnodup⟩

theorem initTrainsAux_post (draws : Nat → Nat) :
    ∀ (cfgs : List TrainConfig) (k : Nat) (s s' : SimState),
      initTrainsAux draws cfgs k s = .ok s' →
      s'.active_plan = s.active_plan ∧ s'.holds_index = s.holds_index
    ∧ s'.base_tick_sec = s.base_tick_sec ∧ s'.simulation_speed = s.simulation_speed
    ∧ s'.sim_time = s.sim_time ∧ s'.status = s.status
    ∧ ((s.trains.map Prod.fst).Nodup → (s'.trains.map Prod.fst).Nodup)
    ∧ ((∀ k0 b, dget k0 s.blocks = some b → b.last_exit_time = none) →
       (∀ k0 b, dget k0 s'.blocks = some b → b.last_exit_time = none)) := by
  intro cfgs
  induction cfgs with
  | nil =>
    intro k s s' h
    simp only [initTrainsAux] at h
    obtain rfl := Except.ok.inj h
    exact ⟨rfl, rfl, rfl, rfl, rfl, rfl, fun x => x, fun x => x⟩
  | cons cfg rest ih =>
    intro k s s' h
    simp only [initTrainsAux] at h
    by_cases h1 : cfg.route.isEmpty = true
    · rw [if_pos h1] at h
      cases h
    · rw [if_neg h1] at h
      by_cases h2 : cfg.route.any (fun bid => (dget bid s.blocks).isNone) = true
      · rw [if_pos h2] at h
        cases h
      · rw [if_neg h2] at h
        cases hsb : dget (cfg.route.getD ((findFreeIndex s cfg.route 0).getD 0) "")
            s.blocks with
        | none =>
          simp only [hsb] at h
          cases h
        | some sb =>
          simp only [hsb] at h
          have H := ih (k + 1) _ s' h
          refine ⟨H.1, H.2.1, H.2.2.1, H.2.2.2.1, H.2.2.2.2.1, H.2.2.2.2.2.1, ?_, ?_⟩
          · intro hn
            exact H.2.2.2.2.2.2.1 (keys_dinsert_nodup _ _ _ hn)
          · intro hb
            refine H.2.2.2.2.2.2.2 ?_
            intro k0 b hk0
            by_cases hkb : k0 = cfg.route.getD ((findFreeIndex s cfg.route 0).getD 0) ""
            · subst hkb
              rw [dget_dinsert_self] at hk0
              obtain rfl := Option.some.inj hk0
              exact hb _ sb hsb
            · rw [dget_dinsert_ne _ _ _ _ hkb] at hk0
              exact hb _ b hk0

theorem engineInv_reset (topo : RailwayTopology) (draws : Nat → Nat) (now : Rat)
    (s s' : SimState) (h : EngineInv s)
    (hres : resetState topo draws now s = .ok s') : EngineInv s' := by
  simp only [resetState, initializeTrainsFn] at hres
  have H := initTrainsAux_post draws trainConfigs 0 _ s' hres
  refine ⟨fun _ => H.2.1, ?_, ?_, ?_, ?_⟩
  · intro k b le hb hle
    exfalso
    have hclear : ∀ (l : List (String × Block)) (k0 : String) (b0 : Block),
        dget k0 (l.map (fun kv =>
          (kv.1, { kv.2 with occupied_by := none, last_exit_time := none }))) = some b0 →
        b0.last_exit_time = none := by
      intro l
      induction l with
      | nil => intro k0 b0 hb0; cases hb0
      | cons kv rest ihc =>
        intro k0 b0 hb0
        by_cases hk : kv.1 = k0
        · simp only [List.map_cons, dget, if_pos hk] at hb0
          obtain rfl := Option.some.inj hb0
          rfl
        · simp only [List.map_cons, dget, if_neg hk] at hb0
          exact ihc k0 b0 hb0
    have hnone : b.last_exit_time = none := by
      refine H.2.2.2.2.2.2.2 ?_ k b hb
      intro k0 b0 hk0
      exact hclear _ k0 b0 hk0
    rw [hnone] at hle
    cases hle
  · rw [H.2.2.1]
    exact h.2.2.1
  · rw [H.2.2.2.1]
    exact h.2.2.2.1
  · exact H.2.2.2.2.2.2.1 List.nodup_nil

theorem engineInv_start (s : SimState) (h : EngineInv s) : EngineInv (start s) := by
  unfold start
  repeat' split
  all_goals exact h

theorem engineInv_applyPlan (p : Plan) (s : SimState) (h : EngineInv s) :
    EngineInv (applyPlan p s) :=
  ⟨fun ha => Option.noConfusion ha, h.2.1, h.2.2.1, h.2.2.2.1, h.2.2.2.2⟩

theorem engineInv_clearPlan (s : SimState) (h : EngineInv s) : EngineInv (clearPlan s) :=
  ⟨fun _ => rfl, h.2.1, h.2.2.1, h.2.2.2.1, h.2.2.2.2⟩

theorem engineInv_updateParameters (c : ControlPayload) (s : SimState)
    (h : EngineInv s) : EngineInv (updateParameters c s) := by
  rcases c with ⟨ch, cd, ce, cs⟩
  cases ch <;> cases cd <;> cases ce <;> cases cs <;>
    refine ⟨h.1, h.2.1, h.2.2.1, ?_, h.2.2.2.2⟩ <;>
    first
      | exact h.2.2.2.1
      | exact lt_of_lt_of_le (by norm_num) (le_max_left _ _)

theorem engineInv_injectDelay (tid : String) (m : Int) (s s' : SimState)
    (ev : EventMessage) (h : EngineInv s)
    (hok : injectDelay tid m s = .ok (s', ev)) : EngineInv s' := by
  unfold injectDelay at hok
  cases hd : dget tid s.trains with
  | none => rw [hd] at hok; cases hok
  | some train =>
    simp only [hd] at hok
    obtain hpair := Except.ok.inj hok
    have hs' := congrArg Prod.fst hpair
    subst hs'
    exact ⟨h.1, h.2.1, h.2.2.1, h.2.2.2.1, keys_dinsert_nodup _ _ _ h.2.2.2.2⟩

theorem engineInv_setBlockIssue (bid : String) (bl : Bool) (s s' : SimState)
    (ev : EventMessage) (h : EngineInv s)
    (hok : setBlockIssue bid bl s = .ok (s', ev)) : EngineInv s' := by
  unfold setBlockIssue at hok
  cases hd : dget bid s.blocks with
  | none => rw [hd] at hok; cases hok
  | some block =>
    simp only [hd] at hok
    have htimes : ∀ (bnew : Block), bnew.last_exit_time = block.last_exit_time →
        timesOK ({ { s with blocks := dinsert bid bnew s.blocks } with
          event_counter := s.event_counter + 1 } : SimState) := by
      intro bnew hlast k b le hb hle
      show le ≤ s.sim_time
      by_cases hkb : k = bid
      · subst hkb
        have hb' : dget k (dinsert k bnew s.blocks) = some b := hb
        rw [dget_dinsert_self] at hb'
        obtain rfl := Option.some.inj hb'
        rw [hlast] at hle
        exact h.2.1 k block le hd hle
      · have hb' : dget k (dinsert bid bnew s.blocks) = some b := hb
        rw [dget_dinsert_ne _ _ _ _ hkb] at hb'
        exact h.2.1 k b le hb' hle
    by_cases hbl : bl = true
    · rw [if_pos hbl] at hok
      obtain hpair := Except.ok.inj hok
      have hs' := (congrArg Prod.fst hpair).symm
      subst hs'
      exact ⟨h.1, htimes _ rfl, h.2.2.1, h.2.2.2.1, h.2.2.2.2⟩
    · rw [if_neg hbl] at hok
      obtain hpair := Except.ok.inj hok
      have hs' := (congrArg Prod.fst hpair).symm
      subst hs'
      exact ⟨h.1, htimes _ rfl, h.2.2.1, h.2.2.2.1, h.2.2.2.2⟩

/-- Every reachable state satisfies the engine invariant. -/
theorem reachable_engineInv (s : SimState) (h : Reachable s) : EngineInv s := by
  induction h with
  | ctor t0 =>
    refine ⟨fun _ => rfl, ?_, by norm_num [initialSimState], by norm_num [initialSimState],
      List.nodup_nil⟩
    intro k b le hb _
    cases hb
  | resetR topo draws now hr hres ih => exact engineInv_reset topo draws now _ _ ih hres
  | startR hr ih => exact engineInv_start _ ih
  | stepR hr ih => exact engineInv_step _ ih
  | applyPlanR p hr ih => exact engineInv_applyPlan p _ ih
  | clearPlanR hr ih => exact engineInv_clearPlan _ ih
  | updateParamsR c hr ih => exact engineInv_updateParameters c _ ih
  | injectR tid m hr hok ih => exact engineInv_injectDelay tid m _ _ _ ih hok
  | blockIssueR bid bl hr hok ih => exact engineInv_setBlockIssue bid bl _ _ _ ih hok

/-- If a train occupies block `X` after a `step` but did not occupy it before,
then some intermediate state of the tick's movement pass let it in: at that
state (whose clock, plan and headway data agree with the post-tick values) the
plan-hold gate was off and `_can_enter_next_block` returned `True`, and every
block's recorded exit time was either its pre-tick value or the current tick
instant. -/
theorem step_entry_exists (s : SimState) (tid X : String) (t t' : Train)
    (ht : dget tid s.trains = some t) (htX : t.current_block ≠ X)
    (ht' : dget tid (step s).1.trains = some t') (ht'X : t'.current_block = X) :
    (step s).1.sim_time = s.sim_time + tickAmount s
  ∧ ∃ u : SimState,
      u.sim_time = s.sim_time + tickAmount s
    ∧ u.holds_index = s.holds_index
    ∧ u.active_plan = s.active_plan
    ∧ u.headway_sec = s.headway_sec
    ∧ holdGate u tid X = false
    ∧ canEnterNextBlock u X = true
    ∧ ∀ k b', dget k u.blocks = some b' → ∃ b, dget k s.blocks = some b ∧
        (b'.last_exit_time = b.last_exit_time
          ∨ b'.last_exit_time = some (s.sim_time + tickAmount s)) := by
  by_cases hrun : s.status = SimulationStatus.RUNNING
  · by_cases hc : s.completed = true
    · exfalso
      rw [step_already_completed s hrun hc] at ht'
      have ht2 : dget tid s.trains = some t' := ht'
      obtain rfl := Option.some.inj (ht.symm.trans ht2)
      exact htX ht'X
    · have hframe := step_main_frame s hrun (bool_eq_false hc)
      have hsf := runTrains_scalarFrame (advanceTick s)
      have hstime : (step s).1.sim_time = s.sim_time + tickAmount s := by
        rw [hframe.2.1, hsf.1]
        rfl
      refine ⟨hstime, ?_⟩
      have key := runTrains_invariant (advanceTick s)
        (fun u =>
          u.sim_time = s.sim_time + tickAmount s
          ∧ u.holds_index = s.holds_index
          ∧ u.active_plan = s.active_plan
          ∧ u.headway_sec = s.headway_sec
          ∧ (∀ k b', dget k u.blocks = some b' → ∃ b, dget k s.blocks = some b ∧
              (b'.last_exit_time = b.last_exit_time
                ∨ b'.last_exit_time = some (s.sim_time + tickAmount s)))
          ∧ (∀ t'', dget tid u.trains = some t'' → t''.current_block = X →
              ∃ v : SimState,
                v.sim_time = s.sim_time + tickAmount s
                ∧ v.holds_index = s.holds_index
                ∧ v.active_plan = s.active_plan
                ∧ v.headway_sec = s.headway_sec
                ∧ holdGate v tid X = false
                ∧ canEnterNextBlock v X = true
                ∧ ∀ k b', dget k v.blocks = some b' → ∃ b, dget k s.blocks = some b ∧
                    (b'.last_exit_time = b.last_exit_time
                      ∨ b'.last_exit_time = some (s.sim_time + tickAmount s))))
        ?_ ?_
      · obtain ⟨_, _, _, _, _, hfact⟩ := key
        rw [hframe.1] at ht'
        exact hfact t' ht' ht'X
      · refine ⟨rfl, rfl, rfl, rfl, ?_, ?_⟩
        · intro k b' hb'
          exact ⟨b', hb', Or.inl rfl⟩
        · intro t'' ht'' ht''X
          have ht2 : dget tid s.trains = some t'' := ht''
          obtain rfl := Option.some.inj (ht.symm.trans ht2)
          exact absurd ht''X htX
      · intro u tid0 hu _
        obtain ⟨hu1, hu2, hu3, hu4, hublk, hutr⟩ := hu
        have SPEC := processTrain_spec u tid0
        refine ⟨SPEC.1.1.trans hu1, SPEC.1.2.1.trans hu2, SPEC.1.2.2.1.trans hu3,
          SPEC.1.2.2.2.2.2.1.trans hu4, ?_, ?_⟩
        · intro k b' hb'
          obtain ⟨b, hbu, _, hlast⟩ := SPEC.2.2.2.2.1 k b' hb'
          obtain ⟨b0, hb0, hlast0⟩ := hublk k b hbu
          refine ⟨b0, hb0, ?_⟩
          rcases hlast with h | h
          · rcases hlast0 with h0 | h0
            · exact Or.inl (h.trans h0)
            · exact Or.inr (h.trans h0)
          · refine Or.inr ?_
            rw [h, hu1]
        · intro t'' ht'' ht''X
          by_cases htid : tid0 = tid
          · subst htid
            rcases Option.eq_none_or_eq_some (dget tid0 u.trains) with hnone | ⟨tu, htu⟩
            · rw [processTrain_no_train u tid0 hnone] at ht''
              have ht2 : dget tid0 u.trains = some t'' := ht''
              rw [hnone] at ht2
              cases ht2
            · rcases SPEC.2.2.2.2.2 tu t'' htu ht'' with hsame | ⟨nb, _, hcb, hgate, hcan⟩
              · exact hutr tu htu (hsame.symm.trans ht''X)
              · have hnbX : nb = X := hcb.symm.trans ht''X
                subst hnbX
                exact ⟨u, hu1, hu2, hu3, hu4, hgate, hcan, hublk⟩
          · rw [SPEC.2.2.2.1 tid (fun he => htid he.symm)] at ht''
            exact hutr t'' ht'' ht''X
  · exfalso
    rw [step_not_running s hrun] at ht'
    have ht2 : dget tid s.trains = some t' := ht'
    obtain rfl := Option.some.inj (ht.symm.trans ht2)
    exact htX ht'X

/-- C1: plan-hold gating.  (1) Every reachable engine state satisfies the
engine invariant.  (2) In an invariant state whose holds index maps
`train_id|block_id` to deadline `d`, a train that enters that block during a
`step` does so only at a post-tick clock `≥ d` - it never enters strictly
before the deadline.  (3) On a tick where the hold gates the train
(`holds_index` hit with `sim_time < deadline`), `_process_train` leaves the
train in place and only applies the wait accounting to it.  (4) The wait
accounting adds exactly the tick's seconds to `waiting_sec`, carrying whole
minutes into `delay_minutes`, and does not move the train. -/
theorem plan_hold_gating :
    (∀ s, Reachable s → EngineInv s)
  ∧ (∀ (s : SimState) (tid b : String) (d : Rat) (t t' : Train),
      EngineInv s →
      dget (holdKey tid b) s.holds_index = some d →
      dget tid s.trains = some t →
      t.current_block ≠ b →
      dget tid (step s).1.trains = some t' →
      t'.current_block = b →
      d ≤ (step s).1.sim_time)
  ∧ (∀ (s : SimState) (tid : String) (train0 : Train) (cur_block : Block) (nb : String),
      dget tid s.trains = some train0 →
      dget train0.current_block s.blocks = some cur_block →
      stillTraversing s (dwellUpdate s cur_block train0) = false →
      ¬ train0.route.length - 1 ≤ train0.route_index →
      train0.route.get? (train0.route_index + 1) = some nb →
      holdGate s tid nb = true →
      processTrain s tid
        = ({ s with trains :=
              dinsert tid (waitTick s (dwellUpdate s cur_block train0)) s.trains }, []))
  ∧ (∀ (s : SimState) (t : Train),
      (waitTick s t).current_block = t.current_block
      ∧ (waitTick s t).waiting_sec
          + 60 * (((waitTick s t).delay_minutes - t.delay_minutes : Int) : Rat)
          = t.waiting_sec + tickAmount s) := by
  refine ⟨fun s h => reachable_engineInv s h, ?_, ?_, ?_⟩
  · intro s tid b d t t' hinv hd ht htb ht' ht'b
    obtain ⟨hstime, u, hu1, hu2, hu3, hu4, hgate, _, _⟩ :=
      step_entry_exists s tid b t t' ht htb ht' ht'b
    have hplan : s.active_plan.isSome = true := by
      cases hap : s.active_plan with
      | none =>
        rw [hinv.1 hap] at hd
        cases hd
      | some p => rfl
    simp only [holdGate, hu3, hu2, hplan, hd, Bool.true_and] at hgate
    have hnot := of_decide_eq_false hgate
    rw [hstime, ← hu1]
    exact le_of_not_lt hnot
  · intro s tid train0 cur_block nb h1 h2 h3 h4 h5 h6
    exact processTrain_gated s tid train0 cur_block nb h1 h2 h3 h4 h5 h6
  · intro s t
    refine ⟨waitTick_current_block s t, ?_⟩
    simp only [waitTick]
    by_cases h : (60 : Rat) ≤ t.waiting_sec + tickAmount s
    · rw [if_pos h]
      push_cast
      ring
    · rw [if_neg h]
      push_cast
      ring

/-- C2: headway separation.  (1) Every reachable engine state satisfies the
engine invariant.  (2) In an invariant state where block `X` records
`last_exit_time = t_A`, a train that enters `X` during a `step` does so at an
entry instant (the post-tick clock) satisfying
`entry - t_A ≥ headway_sec` for the engine's headway parameter at the moment
of entry (`step` never changes `headway_sec`). -/
theorem headway_on_entry :
    (∀ s, Reachable s → EngineInv s)
  ∧ ∀ (s : SimState) (X tid : String) (bX : Block) (tA : Rat) (t t' : Train),
      EngineInv s →
      dget X s.blocks = some bX →
      bX.last_exit_time = some tA →
      dget tid s.trains = some t →
      t.current_block ≠ X →
      dget tid (step s).1.trains = some t' →
      t'.current_block = X →
      (s.headway_sec : Rat) ≤ (step s).1.sim_time - tA := by
  refine ⟨fun s h => reachable_engineInv s h, ?_⟩
  intro s X tid bX tA t t' hinv hbX htA ht htne ht' ht'X
  obtain ⟨hstime, u, hu1, hu2, hu3, hu4, _, hcan, hublk⟩ :=
    step_entry_exists s tid X t t' ht htne ht' ht'X
  rcases Option.eq_none_or_eq_some (dget X u.blocks) with hnx | ⟨nxt, hnx⟩
  · simp only [canEnterNextBlock, hnx] at hcan
    cases hcan
  · simp only [canEnterNextBlock, hnx] at hcan
    by_cases hocc : (nxt.occupied_by.isSome || nxt.issue.isSome) = true
    · rw [if_pos hocc] at hcan
      cases hcan
    · rw [if_neg hocc] at hcan
      obtain ⟨b0, hb0, hlast⟩ := hublk X nxt hnx
      rw [hbX] at hb0
      obtain rfl := Option.some.inj hb0
      rw [hstime]
      rcases hlast with hsame | hnew
      · rw [hsame, htA] at hcan
        have h := of_decide_eq_true hcan
        rw [hu4, hu1] at h
        exact h
      · rw [hnew] at hcan
        have h := of_decide_eq_true hcan
        rw [hu4, hu1] at h
        have htick : 0 < tickAmount s := mul_pos hinv.2.2.1 hinv.2.2.2.1
        have htAle : tA ≤ s.sim_time + tickAmount s :=
          le_trans (hinv.2.1 X bX tA hbX htA) (le_add_of_nonneg_right htick.le)
        linarith

/-- C10 counterexample: a plan with two holds on the same (train, block) pair
produces a single index entry carrying the last hold's deadline, not one entry
per hold. -/
theorem apply_plan_dup_pair_counterexample :
    (applyPlan ⟨[⟨"T1", "B2", 10⟩, ⟨"T1", "B2", 20⟩]⟩ (initialSimState 0)).holds_index.length
        = 1
    ∧ dget (holdKey "T1" "B2")
        (applyPlan ⟨[⟨"T1", "B2", 10⟩, ⟨"T1", "B2", 20⟩]⟩ (initialSimState 0)).holds_index
        = some 20 := by
  refine ⟨by decide, ?_⟩
  norm_num [applyPlan, buildHoldsIndex, initialSimState, holdKey, dinsert, dget]

theorem c1_engineInv_entry : EngineInv c1EntryState := by
  refine ⟨?_, ?_, by norm_num [c1EntryState], by norm_num [c1EntryState], ?_⟩
  · intro h
    simp [c1EntryState] at h
  · intro k b le hb hle
    have hmem := mem_of_dget_eq_some k b _ hb
    simp only [c1EntryState] at hmem
    rcases List.mem_cons.mp hmem with h | h
    · injection h with hk hb'
      subst hb'
      simp [c1Block1] at hle
    · rcases List.mem_cons.mp h with h' | h'
      · injection h' with hk hb'
        subst hb'
        simp [c1Block2] at hle
      · cases h'
  · simp [c1EntryState]

theorem c1_step_entry : dget "T1" (step c1EntryState).1.trains = some c1TrainAfter := by
  have hframe := step_main_frame c1EntryState rfl rfl
  rw [hframe.1]
  have hrt : (runTrains (advanceTick c1EntryState)).1
      = (processTrain (advanceTick c1EntryState) "T1").1 := rfl
  rw [hrt]
  have hdw : dwellUpdate (advanceTick c1EntryState) c1Block1 c1Train = c1Train := by decide
  have hsim : (advanceTick c1EntryState).sim_time = 101 := by
    norm_num [advanceTick, tickAmount, c1EntryState]
  have hpm := processTrain_moves (advanceTick c1EntryState) "T1" c1Train c1Block1 "B2"
    (by decide) (by decide) (by decide) (by decide) (by decide)
    (by
      have hg : holdGate (advanceTick c1EntryState) "T1" "B2"
          = decide ((advanceTick c1EntryState).sim_time < 50) := rfl
      rw [hg, hsim]
      decide)
    (by decide)
  rw [hpm, hdw]
  norm_num [trainMove, createEvent, computeWillExit, advanceTick, tickAmount,
    c1EntryState, c1Train, c1TrainAfter, c1Block1, c1Block2, dget, dinsert]

/-- C1 witness: the engine invariant holds at a constructed instance; at a
concrete running state whose hold `T1|B2 ↦ 50` has expired, the tick that lets
`T1` enter `B2` lands at clock 101 ≥ 50; and at a concrete state whose hold is
still pending the gate equation of `_process_train` applies. -/
theorem plan_hold_gating_witness :
    EngineInv (initialSimState 0)
  ∧ (50 : Rat) ≤ (step c1EntryState).1.sim_time
  ∧ processTrain c1GateState "T1" = (c1GateResult, []) := by
  refine ⟨plan_hold_gating.1 _ (Reachable.ctor 0), ?_, ?_⟩
  · exact plan_hold_gating.2.1 c1EntryState "T1" "B2" 50 c1Train c1TrainAfter
      c1_engineInv_entry
      (by decide)
      (by decide)
      (by decide)
      c1_step_entry
      rfl
  · exact plan_hold_gating.2.2.1 c1GateState "T1" c1Train c1Block1 "B2"
      (by decide)
      (by decide)
      (by decide)
      (by decide)
      (by decide)
      (by decide)

theorem c2_engineInv : EngineInv c2State := by
  refine ⟨?_, ?_, by norm_num [c2State], by norm_num [c2State], ?_⟩
  · intro _
    rfl
  · intro k b le hb hle
    have hmem := mem_of_dget_eq_some k b _ hb
    simp only [c2State] at hmem
    rcases List.mem_cons.mp hmem with h | h
    · injection h with hk hb'
      subst hb'
      simp [c1Block1] at hle
    · rcases List.mem_cons.mp h with h' | h'
      · injection h' with hk hb'
        subst hb'
        rw [show c2Block2.last_exit_time = some 85 from rfl] at hle
        obtain rfl := Option.some.inj hle
        norm_num [c2State]
      · cases h'
  · simp [c2State]

theorem c2_step_entry : dget "T1" (step c2State).1.trains = some c1TrainAfter := by
  have hframe := step_main_frame c2State rfl rfl
  rw [hframe.1]
  have hrt : (runTrains (advanceTick c2State)).1
      = (processTrain (advanceTick c2State) "T1").1 := rfl
  rw [hrt]
  have hdw : dwellUpdate (advanceTick c2State) c1Block1 c1Train = c1Train := by decide
  have hsim : (advanceTick c2State).sim_time = 101 := by
    norm_num [advanceTick, tickAmount, c2State]
  have hpm := processTrain_moves (advanceTick c2State) "T1" c1Train c1Block1 "B2"
    (by decide) (by decide) (by decide) (by decide) (by decide)
    (by decide)
    (by
      have hg : canEnterNextBlock (advanceTick c2State) "B2"
          = decide (((10 : Int) : Rat) ≤ (advanceTick c2State).sim_time - 85) := rfl
      rw [hg, hsim, decide_eq_true_eq]
      norm_num)
  rw [hpm, hdw]
  norm_num [trainMove, createEvent, computeWillExit, advanceTick, tickAmount,
    c2State, c1Train, c1TrainAfter, c1Block1, c2Block2, dget, dinsert]

/-- C2 witness: at a concrete running state where `B2` records a last exit at
85 and the headway is 10, the train enters `B2` on the tick landing at clock
101, and indeed 10 ≤ 101 - 85. -/
theorem headway_on_entry_witness :
    EngineInv (initialSimState 0)
  ∧ ((c2State.headway_sec : Rat) ≤ (step c2State).1.sim_time - 85) := by
  refine ⟨headway_on_entry.1 _ (Reachable.ctor 0), ?_⟩
  exact headway_on_entry.2 c2State "B2" "T1" c2Block2 85 c1Train c1TrainAfter
    c2_engineInv
    (by decide)
    rfl
    (by decide)
    (by decide)
    c2_step_entry
    rfl

/-! ### C9: an empty applied plan is observationally inert -/

theorem holdGate_empty (s : SimState) (tid nb : String) (h : s.holds_index = []) :
    holdGate s tid nb = false := by
  simp [holdGate, h, dget]

/-- The depart-and-enter tail never reads the active plan. -/
theorem trainMove_plan_irrel (s : SimState) (p : Option Plan) (tid : String)
    (train : Train) (cur : Block) (nb : String) :
    trainMove { s with active_plan := p } tid train cur nb
      = ({ (trainMove s tid train cur nb).1 with active_plan := p },
         (trainMove s tid train cur nb).2) := by
  simp only [trainMove, createEvent]
  rcases Option.eq_none_or_eq_some (dget nb (dinsert train.current_block
      { cur with occupied_by := none, last_exit_time := some s.sim_time } s.blocks)) with
    hnx | ⟨nxt, hnx⟩
  · simp only [hnx]
  · simp only [hnx]
    by_cases hst : nxt.station_id.isSome = true
    · rw [if_pos hst, if_pos hst]
      rfl
    · rw [if_neg hst, if_neg hst]
      rfl

/-- With an empty holds index, `_process_train` ignores the active plan: the
plan field is carried through unchanged and nothing else depends on it. -/
theorem processTrain_plan_irrel (s : SimState) (p : Option Plan) (tid : String)
    (h : s.holds_index = []) :
    processTrain { s with active_plan := p } tid
      = ({ (processTrain s tid).1 with active_plan := p }, (processTrain s tid).2) := by
  have hsp : ({ s with active_plan := p } : SimState).holds_index = [] := h
  rcases Option.eq_none_or_eq_some (dget tid s.trains) with h1 | ⟨train0, h1⟩
  · rw [processTrain_no_train s tid h1,
      processTrain_no_train ({ s with active_plan := p }) tid h1]
  · rcases Option.eq_none_or_eq_some (dget train0.current_block s.blocks) with
      h2 | ⟨cur, h2⟩
    · rw [processTrain_no_block s tid train0 h1 h2,
        processTrain_no_block ({ s with active_plan := p }) tid train0 h1 h2]
    · by_cases h3 : stillTraversing s (dwellUpdate s cur train0) = true
      · rw [processTrain_traversing s tid train0 cur h1 h2 h3,
          processTrain_traversing ({ s with active_plan := p }) tid train0 cur h1 h2 h3]
        rfl
      · have h3' := bool_eq_false h3
        by_cases h4 : train0.route.length - 1 ≤ train0.route_index
        · rw [processTrain_at_end s tid train0 cur h1 h2 h3' h4,
            processTrain_at_end ({ s with active_plan := p }) tid train0 cur h1 h2 h3' h4]
          rfl
        · rcases Option.eq_none_or_eq_some (train0.route.get? (train0.route_index + 1)) with
            h5 | ⟨nb, h5⟩
          · rw [processTrain_no_next s tid train0 cur h1 h2 h3' h4 h5,
              processTrain_no_next ({ s with active_plan := p }) tid train0 cur
                h1 h2 h3' h4 h5]
            rfl
          · have hg := holdGate_empty s tid nb h
            have hgp := holdGate_empty ({ s with active_plan := p } : SimState) tid nb hsp
            by_cases h7 : canEnterNextBlock s nb = true
            · rw [processTrain_moves s tid train0 cur nb h1 h2 h3' h4 h5 hg h7,
                processTrain_moves ({ s with active_plan := p }) tid train0 cur nb
                  h1 h2 h3' h4 h5 hgp h7]
              exact trainMove_plan_irrel
                ({ s with trains := dinsert tid (dwellUpdate s cur train0) s.trains })
                p tid (dwellUpdate s cur train0) cur nb
            · have h7' := bool_eq_false h7
              rw [processTrain_blocked s tid train0 cur nb h1 h2 h3' h4 h5 hg h7',
                processTrain_blocked ({ s with active_plan := p }) tid train0 cur nb
                  h1 h2 h3' h4 h5 hgp h7']
              rfl

/-- The movement pass of `step` ignores the active plan when no holds are
indexed. -/
theorem runTrains_plan_irrel (s : SimState) (p : Option Plan) (h : s.holds_index = []) :
    runTrains { s with active_plan := p }
      = ({ (runTrains s).1 with active_plan := p }, (runTrains s).2) := by
  have H : ∀ (l : List String) (u : SimState) (evs : List EventMessage),
      u.holds_index = [] →
      l.foldl (fun acc tid =>
          let r := processTrain acc.1 tid
          (r.1, acc.2 ++ r.2)) ({ u with active_plan := p }, evs)
        = ({ (l.foldl (fun acc tid =>
              let r := processTrain acc.1 tid
              (r.1, acc.2 ++ r.2)) (u, evs)).1 with active_plan := p },
           (l.foldl (fun acc tid =>
              let r := processTrain acc.1 tid
              (r.1, acc.2 ++ r.2)) (u, evs)).2) := by
    intro l
    induction l with
    | nil =>
      intro u evs _
      rfl
    | cons t ts ih =>
      intro u evs hu
      simp only [List.foldl_cons]
      rw [show (processTrain ({ u with active_plan := p } : SimState) t)
          = ({ (processTrain u t).1 with active_plan := p }, (processTrain u t).2)
        from processTrain_plan_irrel u p t hu]
      exact ih ((processTrain u t).1) (evs ++ (processTrain u t).2)
        ((processTrain_spec u t).1.2.1.trans hu)
  have htr : ({ s with active_plan := p } : SimState).trains = s.trains := rfl
  unfold runTrains
  rw [htr]
  exact H (s.trains.map Prod.fst) s [] h

theorem step_eq_phases (s : SimState) (hrun : s.status = SimulationStatus.RUNNING)
    (hc : s.completed = false) :
    step s = stepPhases (runTrains (advanceTick s)) := by
  unfold step
  rw [if_pos hrun, if_neg (show ¬ s.completed = true by rw [hc]; exact Bool.false_ne_true)]
  rfl

theorem stepPhases_plan_irrel (r1 : SimState) (evs : List EventMessage) (p : Option Plan) :
    stepPhases ({ r1 with active_plan := p }, evs)
      = ({ (stepPhases (r1, evs)).1 with active_plan := p }, (stepPhases (r1, evs)).2) := by
  simp only [stepPhases, createEvent, isCompletedCheck]
  repeat' split
  all_goals rfl

theorem step_plan_irrel (s : SimState) (p : Option Plan) (h : s.holds_index = []) :
    step { s with active_plan := p } = ({ (step s).1 with active_plan := p }, (step s).2) := by
  by_cases hrun : s.status = SimulationStatus.RUNNING
  · by_cases hc : s.completed = true
    · rw [step_already_completed s hrun hc,
        step_already_completed ({ s with active_plan := p } : SimState) hrun hc]
    · have hc' := bool_eq_false hc
      rw [step_eq_phases s hrun hc',
        step_eq_phases ({ s with active_plan := p } : SimState) hrun hc']
      rw [show advanceTick ({ s with active_plan := p } : SimState)
          = { advanceTick s with active_plan := p } from rfl]
      rw [runTrains_plan_irrel (advanceTick s) p h]
      exact stepPhases_plan_irrel (runTrains (advanceTick s)).1 (runTrains (advanceTick s)).2 p
  · rw [step_not_running s hrun,
      step_not_running ({ s with active_plan := p } : SimState) hrun]

theorem start_plan_irrel (s : SimState) (p : Option Plan) :
    start { s with active_plan := p } = { start s with active_plan := p } := by
  unfold start
  dsimp only
  repeat' split
  all_goals rfl

theorem start_holds_index (s : SimState) : (start s).holds_index = s.holds_index := by
  unfold start
  repeat' split
  all_goals rfl

theorem mainRunLoop_plan_irrel (fuel : Nat) (s : SimState) (p : Option Plan)
    (h : s.holds_index = []) :
    mainRunLoop fuel { s with active_plan := p }
      = { mainRunLoop fuel s with active_plan := p } := by
  induction fuel generalizing s with
  | zero => rfl
  | succ n ih =>
    simp only [mainRunLoop]
    rw [show ({ s with active_plan := p } : SimState).completed = s.completed from rfl]
    by_cases hcc : s.completed = true
    · rw [if_pos hcc, if_pos hcc]
    · rw [if_neg hcc, if_neg hcc]
      rw [step_plan_irrel s p h]
      exact ih ((step s).1) ((step_plan_frame s).1.trans h)

theorem resetOk_holds (topo : RailwayTopology) (draws : Nat → Nat) (now : Rat)
    (s s' : SimState) (hres : resetState topo draws now s = .ok s') :
    s'.holds_index = [] := by
  simp only [resetState, initializeTrainsFn] at hres
  exact (initTrainsAux_post draws trainConfigs 0 _ s' hres).2.1

/-- C9: an applied empty plan is an identity for the A/B runner: on every
topology, RNG stream and start instant, `run_to_completion` (main.py) with
`Plan([])` applied returns exactly the metrics of the baseline run with no
plan applied (exact equality, hence within any tolerance). -/
theorem empty_plan_identity (topo : RailwayTopology) (draws : Nat → Nat) (t0 : Rat) :
    mainRunToCompletion topo draws t0 (some ⟨[]⟩)
      = mainRunToCompletion topo draws t0 none := by
  unfold mainRunToCompletion
  cases hres : resetState topo draws t0 (initialSimState t0) with
  | error e => rfl
  | ok s =>
    have hholds : s.holds_index = [] := resetOk_holds topo draws t0 _ s hres
    dsimp only
    have h1 : applyPlan ⟨[]⟩ s = { s with active_plan := some ⟨[]⟩ } := by
      unfold applyPlan
      rw [show buildHoldsIndex ⟨[]⟩ s.sim_time = [] from rfl, ← hholds]
    rw [h1, start_plan_irrel s (some ⟨[]⟩),
      mainRunLoop_plan_irrel 20000 (start s) (some ⟨[]⟩)
        ((start_holds_index s).trans hholds)]
    rfl

theorem dget_trains_shift (δ : Rat) (s : SimState) (tid : String) :
    dget tid (shiftState δ s).trains = (dget tid s.trains).map (shiftTrain δ) :=
  dget_map_snd (shiftTrain δ) tid s.trains

theorem dget_blocks_shift (δ : Rat) (s : SimState) (bid : String) :
    dget bid (shiftState δ s).blocks = (dget bid s.blocks).map (shiftBlock δ) :=
  dget_map_snd (shiftBlock δ) bid s.blocks

theorem dget_holds_shift (δ : Rat) (s : SimState) (k : String) :
    dget k (shiftState δ s).holds_index = (dget k s.holds_index).map (fun x => x + δ) :=
  dget_map_snd (fun x => x + δ) k s.holds_index

theorem stillTraversing_shift (δ : Rat) (s : SimState) (t : Train) :
    stillTraversing (shiftState δ s) (shiftTrain δ t) = stillTraversing s t := by
  unfold stillTraversing
  rw [show (shiftTrain δ t).will_exit_at = t.will_exit_at.map (fun x => x + δ) from rfl,
    show (shiftState δ s).sim_time = s.sim_time + δ from rfl]
  cases ht : t.will_exit_at with
  | none => rfl
  | some w =>
    show decide (s.sim_time + δ < w + δ) = decide (s.sim_time < w)
    rw [decide_eq_decide]
    exact add_lt_add_iff_right δ

theorem dwellUpdate_shift (δ : Rat) (s : SimState) (cur : Block) (t : Train) :
    dwellUpdate (shiftState δ s) (shiftBlock δ cur) (shiftTrain δ t)
      = shiftTrain δ (dwellUpdate s cur t) := by
  unfold dwellUpdate
  rw [show (shiftBlock δ cur).station_id = cur.station_id from rfl]
  by_cases hst : cur.station_id.isSome = true
  · rw [if_pos hst, if_pos hst,
      show (shiftTrain δ t).will_exit_at = t.will_exit_at.map (fun x => x + δ) from rfl,
      show (shiftState δ s).sim_time = s.sim_time + δ from rfl]
    cases ht : t.will_exit_at with
    | none => rfl
    | some w =>
      simp only [Option.map]
      by_cases hlt : s.sim_time < w
      · rw [if_pos ((add_lt_add_iff_right δ).mpr hlt), if_pos hlt,
          show w + δ - (s.sim_time + δ) = w - s.sim_time from
            add_sub_add_right_eq_sub w s.sim_time δ]
        rfl
      · rw [if_neg (fun hlt' => hlt ((add_lt_add_iff_right δ).mp hlt')), if_neg hlt]
        rfl
  · rw [if_neg hst, if_neg hst]

theorem waitTick_shift (δ : Rat) (s : SimState) (t : Train) :
    waitTick (shiftState δ s) (shiftTrain δ t) = shiftTrain δ (waitTick s t) := by
  unfold waitTick
  rw [show (shiftTrain δ t).waiting_sec = t.waiting_sec from rfl,
    show tickAmount (shiftState δ s) = tickAmount s from rfl]
  by_cases h : (60 : Rat) ≤ t.waiting_sec + tickAmount s
  · rw [if_pos h, if_pos h]
    rfl
  · rw [if_neg h, if_neg h]
    rfl

theorem canEnterNextBlock_shift (δ : Rat) (s : SimState) (bid : String) :
    canEnterNextBlock (shiftState δ s) bid = canEnterNextBlock s bid := by
  unfold canEnterNextBlock
  rw [dget_blocks_shift]
  cases hb : dget bid s.blocks with
  | none => rfl
  | some b =>
    show (if (shiftBlock δ b).occupied_by.isSome || (shiftBlock δ b).issue.isSome
        then false else _)
      = (if b.occupied_by.isSome || b.issue.isSome then false else _)
    rw [show (shiftBlock δ b).occupied_by = b.occupied_by from rfl,
      show (shiftBlock δ b).issue = b.issue.map (shiftIssue δ) from rfl,
      show (Option.map (shiftIssue δ) b.issue).isSome = b.issue.isSome from by
        cases b.issue <;> rfl]
    by_cases ho : (b.occupied_by.isSome || b.issue.isSome) = true
    · rw [if_pos ho, if_pos ho]
    · rw [if_neg ho, if_neg ho]
      rw [show (shiftBlock δ b).last_exit_time = b.last_exit_time.map (fun x => x + δ)
        from rfl]
      cases hle : b.last_exit_time with
      | none => rfl
      | some le =>
        show decide (((shiftState δ s).headway_sec : Rat)
            ≤ (shiftState δ s).sim_time - (le + δ))
          = decide ((s.headway_sec : Rat) ≤ s.sim_time - le)
        rw [decide_eq_decide,
          show (shiftState δ s).headway_sec = s.headway_sec from rfl,
          show (shiftState δ s).sim_time = s.sim_time + δ from rfl,
          add_sub_add_right_eq_sub]

theorem holdGate_shift (δ : Rat) (s : SimState) (tid nb : String) :
    holdGate (shiftState δ s) tid nb = holdGate s tid nb := by
  unfold holdGate
  rw [show (shiftState δ s).active_plan = s.active_plan from rfl, dget_holds_shift]
  cases hd : dget (holdKey tid nb) s.holds_index with
  | none => rfl
  | some d =>
    show (s.active_plan.isSome && decide ((shiftState δ s).sim_time < d + δ))
      = (s.active_plan.isSome && decide (s.sim_time < d))
    have hdec : decide ((shiftState δ s).sim_time < d + δ) = decide (s.sim_time < d) := by
      rw [decide_eq_decide, show (shiftState δ s).sim_time = s.sim_time + δ from rfl]
      exact add_lt_add_iff_right δ
    rw [hdec]

theorem computeWillExit_shift (δ : Rat) (s : SimState) (t : Train) (b : Block)
    (enter : Rat) :
    computeWillExit (shiftState δ s) (shiftTrain δ t) (shiftBlock δ b) (enter + δ)
      = computeWillExit s t b enter + δ := by
  unfold computeWillExit
  rw [show (shiftBlock δ b).station_id = b.station_id from rfl]
  by_cases hst : b.station_id.isSome = true
  · rw [if_pos hst, if_pos hst,
      show (shiftState δ s).dwell_sec = s.dwell_sec from rfl]
    ring
  · rw [if_neg hst, if_neg hst,
      show blockTravelSeconds (shiftState δ s) (shiftTrain δ t) (shiftBlock δ b)
        = blockTravelSeconds s t b from rfl]
    ring

theorem shift_set_trains (δ : Rat) (s : SimState) (tid : String) (X : Train) :
    ({ shiftState δ s with
        trains := dinsert tid (shiftTrain δ X) (shiftState δ s).trains } : SimState)
      = shiftState δ ({ s with trains := dinsert tid X s.trains }) := by
  unfold shiftState
  dsimp only
  rw [dinsert_map_snd]

theorem shiftState_sim_time (δ : Rat) (u : SimState) :
    (shiftState δ u).sim_time = u.sim_time + δ := rfl

theorem trainMove_shift (δ : Rat) (s : SimState) (tid : String) (train : Train)
    (cur : Block) (nb : String) :
    trainMove (shiftState δ s) tid (shiftTrain δ train) (shiftBlock δ cur) nb
      = (shiftState δ (trainMove s tid train cur nb).1,
         (trainMove s tid train cur nb).2.map (shiftEvent δ)) := by
  have hcur : ({ shiftBlock δ cur with
        occupied_by := none,
        last_exit_time := some ((shiftState δ s).sim_time) } : Block)
      = shiftBlock δ ({ cur with
          occupied_by := none,
          last_exit_time := some s.sim_time }) := rfl
  have hnxtins : ∀ b : Block, ({ shiftBlock δ b with occupied_by := some tid } : Block)
      = shiftBlock δ ({ b with occupied_by := some tid }) := fun b => rfl
  have hs4 : ∀ (bl : List (String × Block)),
      ({ shiftState δ s with
          blocks := bl.map (fun kv => (kv.1, shiftBlock δ kv.2)),
          event_counter := (shiftState δ s).event_counter + 1 } : SimState)
        = shiftState δ ({ s with blocks := bl, event_counter := s.event_counter + 1 }) := by
    intro bl
    unfold shiftState
    dsimp only
  simp only [trainMove, createEvent]
  rw [show (shiftTrain δ train).current_block = train.current_block from rfl, hcur,
    show (shiftState δ s).blocks
      = s.blocks.map (fun kv => (kv.1, shiftBlock δ kv.2)) from rfl,
    ← dinsert_map_snd, dget_map_snd]
  cases hnx : dget nb (dinsert train.current_block
      { cur with occupied_by := none, last_exit_time := some s.sim_time } s.blocks) with
  | none => rfl
  | some nxt =>
    have htrains : ∀ (C : Rat),
        dinsert tid
          ({ shiftTrain δ train with
              current_block := nb,
              route_index := (shiftTrain δ train).route_index + 1,
              entered_block_at := some (s.sim_time + δ),
              will_exit_at := some (C + δ),
              next_block := (shiftTrain δ train).route.get?
                ((shiftTrain δ train).route_index + 2),
              waiting_sec := 0 } : Train)
          (shiftState δ s).trains
        = (dinsert tid
            ({ train with
                current_block := nb,
                route_index := train.route_index + 1,
                entered_block_at := some s.sim_time,
                will_exit_at := some C,
                next_block := train.route.get? (train.route_index + 2),
                waiting_sec := 0 } : Train)
            s.trains).map (fun kv => (kv.1, shiftTrain δ kv.2)) := by
      intro C
      rw [show ({ shiftTrain δ train with
            current_block := nb,
            route_index := (shiftTrain δ train).route_index + 1,
            entered_block_at := some (s.sim_time + δ),
            will_exit_at := some (C + δ),
            next_block := (shiftTrain δ train).route.get?
              ((shiftTrain δ train).route_index + 2),
            waiting_sec := 0 } : Train)
          = shiftTrain δ ({ train with
              current_block := nb,
              route_index := train.route_index + 1,
              entered_block_at := some s.sim_time,
              will_exit_at := some C,
              next_block := train.route.get? (train.route_index + 2),
              waiting_sec := 0 }) from rfl,
        show (shiftState δ s).trains
          = s.trains.map (fun kv => (kv.1, shiftTrain δ kv.2)) from rfl,
        ← dinsert_map_snd]
    simp only [Option.map]
    rw [hnxtins, ← dinsert_map_snd, hs4]
    simp only [shiftState_sim_time]
    rw [computeWillExit_shift, htrains]
    rw [show (shiftBlock δ nxt).station_id = nxt.station_id from rfl]
    by_cases hst : nxt.station_id.isSome = true
    · rw [if_pos hst, if_pos hst]
      rfl
    · rw [if_neg hst, if_neg hst]
      rfl

/-- `_process_train` commutes with a uniform time shift: same decisions, same
movements, all timestamps shifted. -/
theorem processTrain_shift (δ : Rat) (s : SimState) (tid : String) :
    processTrain (shiftState δ s) tid
      = (shiftState δ (processTrain s tid).1,
         (processTrain s tid).2.map (shiftEvent δ)) := by
  rcases Option.eq_none_or_eq_some (dget tid s.trains) with h1 | ⟨train0, h1⟩
  · have h1' : dget tid (shiftState δ s).trains = none := by
      rw [dget_trains_shift, h1]
      rfl
    rw [processTrain_no_train _ tid h1', processTrain_no_train s tid h1]
    rfl
  · have h1' : dget tid (shiftState δ s).trains = some (shiftTrain δ train0) := by
      rw [dget_trains_shift, h1]
      rfl
    have hdw := dwellUpdate_shift δ s
    rcases Option.eq_none_or_eq_some (dget train0.current_block s.blocks) with
      h2 | ⟨cur, h2⟩
    · have h2' : dget (shiftTrain δ train0).current_block (shiftState δ s).blocks
          = none := by
        rw [show (shiftTrain δ train0).current_block = train0.current_block from rfl,
          dget_blocks_shift, h2]
        rfl
      rw [processTrain_no_block _ tid _ h1' h2', processTrain_no_block s tid train0 h1 h2]
      rfl
    · have h2' : dget (shiftTrain δ train0).current_block (shiftState δ s).blocks
          = some (shiftBlock δ cur) := by
        rw [show (shiftTrain δ train0).current_block = train0.current_block from rfl,
          dget_blocks_shift, h2]
        rfl
      by_cases h3 : stillTraversing s (dwellUpdate s cur train0) = true
      · have h3' : stillTraversing (shiftState δ s)
            (dwellUpdate (shiftState δ s) (shiftBlock δ cur) (shiftTrain δ train0)) = true := by
          rw [hdw cur train0, stillTraversing_shift]
          exact h3
        rw [processTrain_traversing _ tid _ _ h1' h2' h3',
          processTrain_traversing s tid train0 cur h1 h2 h3,
          hdw cur train0, shift_set_trains]
        rfl
      · have h3'' := bool_eq_false h3
        have h3' : stillTraversing (shiftState δ s)
            (dwellUpdate (shiftState δ s) (shiftBlock δ cur) (shiftTrain δ train0)) = false := by
          rw [hdw cur train0, stillTraversing_shift]
          exact h3''
        by_cases h4 : train0.route.length - 1 ≤ train0.route_index
        · have h4' : (shiftTrain δ train0).route.length - 1
              ≤ (shiftTrain δ train0).route_index := h4
          rw [processTrain_at_end _ tid _ _ h1' h2' h3' h4',
            processTrain_at_end s tid train0 cur h1 h2 h3'' h4,
            hdw cur train0, shift_set_trains]
          rfl
        · have h4' : ¬ (shiftTrain δ train0).route.length - 1
              ≤ (shiftTrain δ train0).route_index := h4
          rcases Option.eq_none_or_eq_some (train0.route.get? (train0.route_index + 1)) with
            h5 | ⟨nb, h5⟩
          · have h5' : (shiftTrain δ train0).route.get?
                ((shiftTrain δ train0).route_index + 1) = none := h5
            rw [processTrain_no_next _ tid _ _ h1' h2' h3' h4' h5',
              processTrain_no_next s tid train0 cur h1 h2 h3'' h4 h5,
              hdw cur train0, shift_set_trains]
            rfl
          · have h5' : (shiftTrain δ train0).route.get?
                ((shiftTrain δ train0).route_index + 1) = some nb := h5
            by_cases h6 : holdGate s tid nb = true
            · have h6' : holdGate (shiftState δ s) tid nb = true := by
                rw [holdGate_shift]
                exact h6
              rw [processTrain_gated _ tid _ _ nb h1' h2' h3' h4' h5' h6',
                processTrain_gated s tid train0 cur nb h1 h2 h3'' h4 h5 h6,
                hdw cur train0, waitTick_shift, shift_set_trains]
              rfl
            · have h6'' := bool_eq_false h6
              have h6' : holdGate (shiftState δ s) tid nb = false := by
                rw [holdGate_shift]
                exact h6''
              by_cases h7 : canEnterNextBlock s nb = true
              · have h7' : canEnterNextBlock (shiftState δ s) nb = true := by
                  rw [canEnterNextBlock_shift]
                  exact h7
                rw [processTrain_moves _ tid _ _ nb h1' h2' h3' h4' h5' h6' h7',
                  processTrain_moves s tid train0 cur nb h1 h2 h3'' h4 h5 h6'' h7,
                  hdw cur train0, shift_set_trains]
                exact trainMove_shift δ
                  ({ s with trains := dinsert tid (dwellUpdate s cur train0) s.trains })
                  tid (dwellUpdate s cur train0) cur nb
              · have h7'' := bool_eq_false h7
                have h7' : canEnterNextBlock (shiftState δ s) nb = false := by
                  rw [canEnterNextBlock_shift]
                  exact h7''
                rw [processTrain_blocked _ tid _ _ nb h1' h2' h3' h4' h5' h6' h7',
                  processTrain_blocked s tid train0 cur nb h1 h2 h3'' h4 h5 h6'' h7'',
                  hdw cur train0, waitTick_shift, shift_set_trains]
                rfl

theorem isCompletedCheck_shift (δ : Rat) (s : SimState) :
    isCompletedCheck (shiftState δ s) = isCompletedCheck s := by
  unfold isCompletedCheck
  rw [show (shiftState δ s).trains
      = s.trains.map (fun kv => (kv.1, shiftTrain δ kv.2)) from rfl,
    show (shiftState δ s).sim_time = s.sim_time + δ from rfl, List.all_map]
  congr 1
  funext kv
  dsimp only [Function.comp]
  rw [show (shiftTrain δ kv.2).route = kv.2.route from rfl,
    show (shiftTrain δ kv.2).route_index = kv.2.route_index from rfl,
    show (shiftTrain δ kv.2).dwell_remaining = kv.2.dwell_remaining from rfl,
    show (shiftTrain δ kv.2).will_exit_at = kv.2.will_exit_at.map (fun x => x + δ)
      from rfl]
  cases hw : kv.2.will_exit_at with
  | none => rfl
  | some w =>
    simp only [Option.map]
    rw [show decide (s.sim_time + δ < w + δ) = decide (s.sim_time < w) from by
      rw [decide_eq_decide]; exact add_lt_add_iff_right δ]

theorem runTrains_shift (δ : Rat) (s : SimState) :
    runTrains (shiftState δ s)
      = (shiftState δ (runTrains s).1, (runTrains s).2.map (shiftEvent δ)) := by
  have H : ∀ (l : List String) (u : SimState) (evs : List EventMessage),
      l.foldl (fun acc tid =>
          let r := processTrain acc.1 tid
          (r.1, acc.2 ++ r.2)) (shiftState δ u, evs.map (shiftEvent δ))
        = (shiftState δ (l.foldl (fun acc tid =>
              let r := processTrain acc.1 tid
              (r.1, acc.2 ++ r.2)) (u, evs)).1,
            (l.foldl (fun acc tid =>
              let r := processTrain acc.1 tid
              (r.1, acc.2 ++ r.2)) (u, evs)).2.map (shiftEvent δ)) := by
    intro l
    induction l with
    | nil =>
      intro u evs
      rfl
    | cons t ts ih =>
      intro u evs
      simp only [List.foldl_cons]
      rw [show (processTrain (shiftState δ u) t)
          = (shiftState δ (processTrain u t).1, (processTrain u t).2.map (shiftEvent δ))
        from processTrain_shift δ u t,
        show evs.map (shiftEvent δ) ++ (processTrain u t).2.map (shiftEvent δ)
          = (evs ++ (processTrain u t).2).map (shiftEvent δ)
        from (List.map_append (shiftEvent δ) evs (processTrain u t).2).symm]
      exact ih ((processTrain u t).1) (evs ++ (processTrain u t).2)
  unfold runTrains
  rw [show (shiftState δ s).trains
      = s.trains.map (fun kv => (kv.1, shiftTrain δ kv.2)) from rfl, List.map_map,
    show ((Prod.fst : String × Train → String) ∘ fun kv => (kv.1, shiftTrain δ kv.2))
      = (Prod.fst : String × Train → String) from rfl]
  exact H (s.trains.map Prod.fst) s []

theorem advanceTick_shift (δ : Rat) (s : SimState) :
    advanceTick (shiftState δ s) = shiftState δ (advanceTick s) := by
  unfold advanceTick shiftState tickAmount
  dsimp only
  rw [add_right_comm]

theorem stepPhases_eq (r : SimState × List EventMessage) :
    stepPhases r = stepEmit (stepCheck (stepIdle r.1)) r.2 := rfl

theorem stepIdle_shift (δ : Rat) (r1 : SimState) :
    stepIdle (shiftState δ r1) = shiftState δ (stepIdle r1) := by
  unfold stepIdle
  rw [show (shiftState δ r1).moved_this_tick = r1.moved_this_tick from rfl,
    show (shiftState δ r1).idle_ticks = r1.idle_ticks from rfl,
    show (shiftState δ r1).idle_limit = r1.idle_limit from rfl]
  by_cases hm : r1.moved_this_tick = true
  · rw [if_pos hm, if_pos hm]
    rfl
  · rw [if_neg hm, if_neg hm]
    by_cases hi : r1.idle_limit ≤ r1.idle_ticks + 1
    · rw [if_pos hi, if_pos hi]
      rfl
    · rw [if_neg hi, if_neg hi]
      rfl

theorem stepCheck_shift (δ : Rat) (s3 : SimState) :
    stepCheck (shiftState δ s3) = shiftState δ (stepCheck s3) := by
  unfold stepCheck
  rw [show (shiftState δ s3).completed = s3.completed from rfl, isCompletedCheck_shift]
  by_cases hc : (!s3.completed && isCompletedCheck s3) = true
  · rw [if_pos hc, if_pos hc]
    rfl
  · rw [if_neg hc, if_neg hc]

theorem stepEmit_shift (δ : Rat) (s4 : SimState) (evs : List EventMessage) :
    stepEmit (shiftState δ s4) (evs.map (shiftEvent δ))
      = (shiftState δ (stepEmit s4 evs).1, (stepEmit s4 evs).2.map (shiftEvent δ)) := by
  unfold stepEmit createEvent
  rw [show (shiftState δ s4).completed = s4.completed from rfl,
    show (shiftState δ s4).completion_emitted = s4.completion_emitted from rfl]
  by_cases he : (s4.completed && !s4.completion_emitted) = true
  · rw [if_pos he, if_pos he]
    dsimp only
    rw [List.map_append]
    rfl
  · rw [if_neg he, if_neg he]

theorem stepPhases_shift (δ : Rat) (r1 : SimState) (evs : List EventMessage) :
    stepPhases (shiftState δ r1, evs.map (shiftEvent δ))
      = (shiftState δ (stepPhases (r1, evs)).1,
         (stepPhases (r1, evs)).2.map (shiftEvent δ)) := by
  rw [stepPhases_eq, stepPhases_eq]
  dsimp only
  rw [stepIdle_shift, stepCheck_shift]
  exact stepEmit_shift δ (stepCheck (stepIdle r1)) evs

theorem step_shift (δ : Rat) (s : SimState) :
    step (shiftState δ s)
      = (shiftState δ (step s).1, (step s).2.map (shiftEvent δ)) := by
  by_cases hrun : s.status = SimulationStatus.RUNNING
  · by_cases hc : s.completed = true
    · rw [step_already_completed s hrun hc,
        step_already_completed (shiftState δ s)
          (show (shiftState δ s).status = SimulationStatus.RUNNING from hrun)
          (show (shiftState δ s).completed = true from hc)]
      rfl
    · have hc' := bool_eq_false hc
      rw [step_eq_phases s hrun hc',
        step_eq_phases (shiftState δ s)
          (show (shiftState δ s).status = SimulationStatus.RUNNING from hrun)
          (show (shiftState δ s).completed = false from hc'),
        advanceTick_shift, runTrains_shift]
      exact stepPhases_shift δ (runTrains (advanceTick s)).1 (runTrains (advanceTick s)).2
  · rw [step_not_running s hrun,
      step_not_running (shiftState δ s)
        (show ¬ (shiftState δ s).status = SimulationStatus.RUNNING from hrun)]
    rfl

theorem findFreeIndex_shift (δ : Rat) (s : SimState) :
    ∀ (route : List String) (i : Nat),
      findFreeIndex (shiftState δ s) route i = findFreeIndex s route i := by
  intro route
  induction route with
  | nil => intro i; rfl
  | cons bid rest ih =>
    intro i
    unfold findFreeIndex
    rw [dget_blocks_shift]
    cases hb : dget bid s.blocks with
    | none =>
      simp only [Option.map]
      exact ih (i + 1)
    | some b =>
      simp only [Option.map]
      rw [show (shiftBlock δ b).occupied_by = b.occupied_by from rfl]
      by_cases ho : b.occupied_by.isNone = true
      · rw [if_pos ho, if_pos ho]
      · rw [if_neg ho, if_neg ho]
        exact ih (i + 1)

theorem initTrainsAux_shift (δ : Rat) (draws : Nat → Nat) :
    ∀ (cfgs : List TrainConfig) (k : Nat) (s : SimState),
      initTrainsAux draws cfgs k (shiftState δ s)
        = (initTrainsAux draws cfgs k s).map (shiftState δ) := by
  intro cfgs
  induction cfgs with
  | nil => intro k s; rfl
  | cons cfg rest ih =>
    intro k s
    simp only [initTrainsAux]
    by_cases h1 : cfg.route.isEmpty = true
    · rw [if_pos h1, if_pos h1]
      rfl
    · rw [if_neg h1, if_neg h1]
      rw [show (cfg.route.any fun bid => (dget bid (shiftState δ s).blocks).isNone)
          = (cfg.route.any fun bid => (dget bid s.blocks).isNone) from by
        congr 1
        funext bid
        rw [dget_blocks_shift]
        cases dget bid s.blocks <;> rfl]
      by_cases h2 : (cfg.route.any fun bid => (dget bid s.blocks).isNone) = true
      · rw [if_pos h2, if_pos h2]
        rfl
      · rw [if_neg h2, if_neg h2]
        rw [findFreeIndex_shift, dget_blocks_shift]
        cases hsb : dget (cfg.route.getD ((findFreeIndex s cfg.route 0).getD 0) "")
            s.blocks with
        | none =>
          simp only [Option.map]
          rfl
        | some sb =>
          simp only [Option.map, shiftState_sim_time]
          rw [show s.sim_time + δ - ((draws (2 * k) : Nat) : Rat)
              = s.sim_time - ((draws (2 * k) : Nat) : Rat) + δ from
              add_sub_right_comm s.sim_time δ ((draws (2 * k) : Nat) : Rat)]
          have ht0 :
              ({ id := cfg.id, name := cfg.name, priority := cfg.priority,
                 current_block := cfg.route.getD ((findFreeIndex s cfg.route 0).getD 0) "",
                 route := cfg.route,
                 route_index := (findFreeIndex s cfg.route 0).getD 0,
                 speed_kmh := prioritySpeed cfg.priority,
                 next_block := cfg.route.get? ((findFreeIndex s cfg.route 0).getD 0 + 1),
                 delay_minutes := ((draws (2 * k + 1) : Nat) : Int),
                 dwell_remaining := 0,
                 entered_block_at :=
                   some (s.sim_time - ((draws (2 * k) : Nat) : Rat) + δ),
                 will_exit_at := none, waiting_sec := 0 } : Train)
              = shiftTrain δ
                ({ id := cfg.id, name := cfg.name, priority := cfg.priority,
                   current_block :=
                     cfg.route.getD ((findFreeIndex s cfg.route 0).getD 0) "",
                   route := cfg.route,
                   route_index := (findFreeIndex s cfg.route 0).getD 0,
                   speed_kmh := prioritySpeed cfg.priority,
                   next_block := cfg.route.get? ((findFreeIndex s cfg.route 0).getD 0 + 1),
                   delay_minutes := ((draws (2 * k + 1) : Nat) : Int),
                   dwell_remaining := 0,
                   entered_block_at :=
                     some (s.sim_time - ((draws (2 * k) : Nat) : Rat)),
                   will_exit_at := none, waiting_sec := 0 }) := rfl
          rw [ht0, computeWillExit_shift]
          rw [show ∀ C : Rat,
              ({ id := cfg.id, name := cfg.name, priority := cfg.priority,
                 current_block :=
                   cfg.route.getD ((findFreeIndex s cfg.route 0).getD 0) "",
                 route := cfg.route,
                 route_index := (findFreeIndex s cfg.route 0).getD 0,
                 speed_kmh := prioritySpeed cfg.priority,
                 next_block := cfg.route.get? ((findFreeIndex s cfg.route 0).getD 0 + 1),
                 delay_minutes := ((draws (2 * k + 1) : Nat) : Int),
                 dwell_remaining := 0,
                 entered_block_at :=
                   some (s.sim_time - ((draws (2 * k) : Nat) : Rat) + δ),
                 will_exit_at := some (C + δ), waiting_sec := 0 } : Train)
              = shiftTrain δ
                ({ id := cfg.id, name := cfg.name, priority := cfg.priority,
                   current_block :=
                     cfg.route.getD ((findFreeIndex s cfg.route 0).getD 0) "",
                   route := cfg.route,
                   route_index := (findFreeIndex s cfg.route 0).getD 0,
                   speed_kmh := prioritySpeed cfg.priority,
                   next_block :=
                     cfg.route.get? ((findFreeIndex s cfg.route 0).getD 0 + 1),
                   delay_minutes := ((draws (2 * k + 1) : Nat) : Int),
                   dwell_remaining := 0,
                   entered_block_at :=
                     some (s.sim_time - ((draws (2 * k) : Nat) : Rat)),
                   will_exit_at := some C, waiting_sec := 0 })
            from fun C => rfl]
          rw [show ∀ (b : Block),
              ({ shiftBlock δ b with occupied_by := some cfg.id } : Block)
                = shiftBlock δ ({ b with occupied_by := some cfg.id })
            from fun b => rfl]
          rw [show (shiftState δ s).trains
              = s.trains.map (fun kv => (kv.1, shiftTrain δ kv.2)) from rfl,
            show (shiftState δ s).blocks
              = s.blocks.map (fun kv => (kv.1, shiftBlock δ kv.2)) from rfl,
            ← dinsert_map_snd, ← dinsert_map_snd]
          exact ih (k + 1)
            ({ s with
                trains := dinsert cfg.id
                  ({ id := cfg.id, name := cfg.name, priority := cfg.priority,
                     current_block :=
                       cfg.route.getD ((findFreeIndex s cfg.route 0).getD 0) "",
                     route := cfg.route,
                     route_index := (findFreeIndex s cfg.route 0).getD 0,
                     speed_kmh := prioritySpeed cfg.priority,
                     next_block :=
                       cfg.route.get? ((findFreeIndex s cfg.route 0).getD 0 + 1),
                     delay_minutes := ((draws (2 * k + 1) : Nat) : Int),
                     dwell_remaining := 0,
                     entered_block_at :=
                       some (s.sim_time - ((draws (2 * k) : Nat) : Rat)),
                     will_exit_at := some (computeWillExit s
                       ({ id := cfg.id, name := cfg.name, priority := cfg.priority,
                          current_block :=
                            cfg.route.getD ((findFreeIndex s cfg.route 0).getD 0) "",
                          route := cfg.route,
                          route_index := (findFreeIndex s cfg.route 0).getD 0,
                          speed_kmh := prioritySpeed cfg.priority,
                          next_block :=
                            cfg.route.get? ((findFreeIndex s cfg.route 0).getD 0 + 1),
                          delay_minutes := ((draws (2 * k + 1) : Nat) : Int),
                          dwell_remaining := 0,
                          entered_block_at :=
                            some (s.sim_time - ((draws (2 * k) : Nat) : Rat)),
                          will_exit_at := none, waiting_sec := 0 })
                       sb (s.sim_time - ((draws (2 * k) : Nat) : Rat))),
                     waiting_sec := 0 } : Train)
                  s.trains,
                blocks := dinsert
                  (cfg.route.getD ((findFreeIndex s cfg.route 0).getD 0) "")
                  ({ sb with occupied_by := some cfg.id }) s.blocks })

theorem initializeTrainsFn_shift (δ : Rat) (draws : Nat → Nat) (s : SimState) :
    initializeTrainsFn draws (shiftState δ s)
      = (initializeTrainsFn draws s).map (shiftState δ) := by
  unfold initializeTrainsFn
  dsimp only
  rw [show (shiftState δ s).blocks
      = s.blocks.map (fun kv => (kv.1, shiftBlock δ kv.2)) from rfl,
    List.map_map,
    show ((fun kv : String × Block =>
          (kv.1, { kv.2 with occupied_by := none, last_exit_time := none }))
        ∘ fun kv => (kv.1, shiftBlock δ kv.2))
      = ((fun kv => (kv.1, shiftBlock δ kv.2))
        ∘ fun kv : String × Block =>
          (kv.1, { kv.2 with occupied_by := none, last_exit_time := none }))
      from funext (fun kv => rfl),
    ← List.map_map]
  exact initTrainsAux_shift δ draws trainConfigs 0
    ({ s with
        blocks := s.blocks.map
                    (fun kv =>
                      (kv.1, { kv.2 with occupied_by := none, last_exit_time := none })) })

theorem resetState_shift (δ : Rat) (topo : RailwayTopology) (draws : Nat → Nat)
    (now : Rat) (s : SimState) :
    resetState topo draws (now + δ) (shiftState δ s)
      = (resetState topo draws now s).map (shiftState δ) := by
  have hfold : ∀ (tb : List TopologyBlock) (acc : List (String × Block)),
      (tb.foldl (fun bs b => dinsert b.id (mkBlock b) bs) acc).map
        (fun kv => (kv.1, shiftBlock δ kv.2))
      = tb.foldl (fun bs b => dinsert b.id (mkBlock b) bs)
          (acc.map (fun kv => (kv.1, shiftBlock δ kv.2))) := by
    intro tb
    induction tb with
    | nil => intro acc; rfl
    | cons b rest ihb =>
      intro acc
      simp only [List.foldl_cons]
      rw [ihb (dinsert b.id (mkBlock b) acc), dinsert_map_snd,
        show shiftBlock δ (mkBlock b) = mkBlock b from rfl]
  have hstate :
      ({ shiftState δ s with
          sim_time := now + δ, tick_count := 0, event_counter := 0,
          completed := false, completion_emitted := false, moved_this_tick := false,
          idle_ticks := 0, active_plan := none, holds_index := [],
          status := SimulationStatus.IDLE,
          blocks := topo.blocks.foldl (fun bs b => dinsert b.id (mkBlock b) bs) [],
          headway_sec := topo.default_headway_sec,
          dwell_sec := topo.default_dwell_sec,
          trains := [] } : SimState)
        = shiftState δ ({ s with
            sim_time := now, tick_count := 0, event_counter := 0,
            completed := false, completion_emitted := false, moved_this_tick := false,
            idle_ticks := 0, active_plan := none, holds_index := [],
            status := SimulationStatus.IDLE,
            blocks := topo.blocks.foldl (fun bs b => dinsert b.id (mkBlock b) bs) [],
            headway_sec := topo.default_headway_sec,
            dwell_sec := topo.default_dwell_sec,
            trains := [] }) := by
    unfold shiftState
    dsimp only
    rw [hfold topo.blocks []]
    rfl
  unfold resetState
  dsimp only
  rw [hstate]
  exact initializeTrainsFn_shift δ draws _

theorem start_shift (δ : Rat) (s : SimState) :
    start (shiftState δ s) = shiftState δ (start s) := by
  unfold start
  rw [show (shiftState δ s).status = s.status from rfl]
  by_cases h1 : s.status = SimulationStatus.COMPLETED
  · rw [if_pos h1, if_pos h1]
  · rw [if_neg h1, if_neg h1]
    by_cases h2 : s.status = SimulationStatus.RUNNING
    · rw [if_pos h2, if_pos h2]
    · rw [if_neg h2, if_neg h2]
      rfl

theorem runToCompletionLoop_shift (δ : Rat) (max_ticks : Nat) :
    ∀ (fuel : Nat) (s : SimState),
      runToCompletionLoop max_ticks fuel (shiftState δ s)
        = (shiftState δ (runToCompletionLoop max_ticks fuel s).1,
           (runToCompletionLoop max_ticks fuel s).2.map (shiftEvent δ)) := by
  intro fuel
  induction fuel with
  | zero => intro s; rfl
  | succ n ih =>
    intro s
    simp only [runToCompletionLoop]
    rw [show (shiftState δ s).completed = s.completed from rfl,
      show (shiftState δ s).tick_count = s.tick_count from rfl]
    by_cases hc : (s.completed || !(decide (s.tick_count < max_ticks))) = true
    · rw [if_pos hc, if_pos hc]
      rfl
    · rw [if_neg hc, if_neg hc]
      rw [step_shift]
      dsimp only
      rw [ih ((step s).1)]
      dsimp only
      rw [← List.map_append]

theorem runToCompletion_shift (δ : Rat) (mt : Nat) (s : SimState) :
    runToCompletion mt (shiftState δ s)
      = (shiftState δ (runToCompletion mt s).1,
         (runToCompletion mt s).2.map (shiftEvent δ)) := by
  unfold runToCompletion
  rw [start_shift]
  exact runToCompletionLoop_shift δ mt mt (start s)

theorem buildHoldsIndex_shift (δ : Rat) (p : Plan) (base : Rat) :
    buildHoldsIndex p (base + δ)
      = (buildHoldsIndex p base).map (fun kv => (kv.1, kv.2 + δ)) := by
  unfold buildHoldsIndex
  have H : ∀ (hs : List HoldDirective) (acc : List (String × Rat)),
      hs.foldl (fun idx h => dinsert (holdKey h.train_id h.block_id)
        (base + δ + (h.not_before_offset_sec : Rat)) idx)
        (acc.map (fun kv => (kv.1, kv.2 + δ)))
      = (hs.foldl (fun idx h => dinsert (holdKey h.train_id h.block_id)
          (base + (h.not_before_offset_sec : Rat)) idx) acc).map
          (fun kv => (kv.1, kv.2 + δ)) := by
    intro hs
    induction hs with
    | nil => intro acc; rfl
    | cons h rest ihh =>
      intro acc
      simp only [List.foldl_cons]
      rw [show base + δ + (h.not_before_offset_sec : Rat)
          = base + (h.not_before_offset_sec : Rat) + δ from
          add_right_comm base δ (h.not_before_offset_sec : Rat),
        ← dinsert_map_snd (fun x => x + δ) (holdKey h.train_id h.block_id)
          (base + (h.not_before_offset_sec : Rat)) acc]
      exact ihh (dinsert (holdKey h.train_id h.block_id)
        (base + (h.not_before_offset_sec : Rat)) acc)
  exact H p.holds []

theorem applyPlan_shift (δ : Rat) (p : Plan) (s : SimState) :
    applyPlan p (shiftState δ s) = shiftState δ (applyPlan p s) := by
  unfold applyPlan
  rw [show (shiftState δ s).sim_time = s.sim_time + δ from rfl, buildHoldsIndex_shift]
  rfl

theorem runBatch_shift (δ : Rat) (topo : RailwayTopology) (draws : Nat → Nat)
    (t0 : Rat) (plan : Option Plan) (mt : Nat) :
    runBatch topo draws (t0 + δ) plan mt
      = (runBatch topo draws t0 plan mt).map
          (fun r => (shiftState δ r.1, r.2.map (shiftEvent δ))) := by
  unfold runBatch
  rw [show initialSimState (t0 + δ) = shiftState δ (initialSimState t0) from rfl,
    resetState_shift]
  cases hres : resetState topo draws t0 (initialSimState t0) with
  | error e => rfl
  | ok s =>
    simp only [Except.map]
    cases plan with
    | none =>
      dsimp only
      rw [runToCompletion_shift]
    | some p =>
      dsimp only
      rw [applyPlan_shift, runToCompletion_shift]

theorem coreMetrics_shift (δ : Rat) (s : SimState) :
    coreMetrics (shiftState δ s) = coreMetrics s := by
  unfold coreMetrics collectMetrics
  dsimp only
  rw [show (shiftState δ s).trains
      = s.trains.map (fun kv => (kv.1, shiftTrain δ kv.2)) from rfl,
    List.map_map,
    show ((fun kv : String × Train => kv.2.delay_minutes)
        ∘ fun kv => (kv.1, shiftTrain δ kv.2))
      = (fun kv : String × Train => kv.2.delay_minutes) from funext (fun kv => rfl),
    List.length_map,
    show (shiftState δ s).tick_count = s.tick_count from rfl,
    show (shiftState δ s).completed = s.completed from rfl]

theorem movementLog_shift (δ : Rat) (evs : List EventMessage) :
    movementLog (evs.map (shiftEvent δ)) = movementLog evs := by
  unfold movementLog
  rw [List.map_map]
  rfl

/-- C7: `reset(); start(); run_to_completion()` on a fresh engine is
deterministic given the RNG stream, the topology, the parameters and the
applied plan.  The only remaining input, the wall clock at construction/reset
time, does not influence the run: two executions started at arbitrary wall
clocks `t0` and `t0'` produce the same movement sequence (event kinds, trains
and blocks, in order) and the same final metrics (avg_delay_min,
total_delay_min, ticks, completed). -/
theorem run_to_completion_deterministic (topo : RailwayTopology) (draws : Nat → Nat)
    (t0 t0' : Rat) (plan : Option Plan) (max_ticks : Nat) :
    (runBatch topo draws t0 plan max_ticks).map
        (fun r => (coreMetrics r.1, movementLog r.2))
      = (runBatch topo draws t0' plan max_ticks).map
        (fun r => (coreMetrics r.1, movementLog r.2)) := by
  have h := runBatch_shift (t0' - t0) topo draws t0 plan max_ticks
  rw [show t0 + (t0' - t0) = t0' from by ring] at h
  rw [h]
  cases hr : runBatch topo draws t0 plan max_ticks with
  | error e => rfl
  | ok r =>
    simp only [Except.map]
    rw [coreMetrics_shift, movementLog_shift]

end SIH

